import Mathlib

/-!
Verification development for the dell/ansible-vplex collection.

The repository is a set of Ansible modules driving a VPLEX storage
appliance through its REST API.  Each module fetches the current remote
state, diffs it against the desired parameters, emits a minimal list of
JSON-patch operations, and reports a single boolean changed flag plus
the resulting resource record.

This file shallowly embeds the reconciliation logic of the modules that
the verified properties are about:

* the port section of update_storageview
  (plugins/modules/dellemc_vplex_storage_view.py),
* perform_module_operation of the consistency-group module
  (plugins/modules/dellemc_vplex_consistency_group.py),
* perform_module_operation of the data-migration module
  (plugins/modules/dellemc_vplex_data_migration.py),
* the expand section of the virtual-volume module
  (plugins/modules/dellemc_vplex_virtual_volume.py),
* the state=absent branch of the device module
  (plugins/modules/dellemc_vplex_device.py),
* perform_module_operation of the distributed-consistency-group module
  (dellemc_ansible/vplex/library/dellemc_vplex_distributed_consistency_group.py),
* helpers from dellemc_ansible/utils/dellemc_ansible_vplex_utils.py.

Remote calls are modelled by explicit state passing: the appliance state
is a record, a run returns the new state, the terminal result, and the
list of mutating calls it issued.  fail_json is modelled by a failure
outcome, exit_json by a success outcome carrying the changed flag and
the resource details.
-/

namespace Vplex

/-- A JSON-patch style operation, the triple built by the payload helpers
of the modules.  The value is kept as a string (a URI or a name). -/
structure PatchOp where
  op : String
  path : String
  value : String
  deriving Repr, DecidableEq

/-- Terminal result of one module invocation: either exit_json with the
changed flag and the resource details, or fail_json with a message. -/
inductive Outcome (α : Type) where
  | ok (changed : Bool) (details : Option α)
  | fail (msg : String)
  deriving Repr, DecidableEq

/-- Python truthiness of an optional string parameter: None and the empty
string are falsy. -/
def truthyStr : Option String → Bool
  | none => false
  | some s => s ≠ ""

/-- Python truthiness of an optional list parameter: None and the empty
list are falsy. -/
def truthyList : Option (List String) → Bool
  | none => false
  | some l => l ≠ []

/-- Python truthiness of an optional integer parameter: None and 0 are
falsy. -/
def truthyInt : Option Int → Bool
  | none => false
  | some n => n ≠ 0

/-- A word character of the regex `\w`: alphanumeric or underscore. -/
def isWordChar (c : Char) : Bool :=
  c.isAlphanum || c = '_'

/-- utils.validate_name (dellemc_ansible_vplex_utils.py): the name must be
at most char_len characters, must start with a letter or underscore, and
may contain only word characters and hyphens afterwards (the regex
anchored as a full match). Returns the status flag and a message. -/
def validate_name (name : String) (char_len : Nat) (field : String) :
    Bool × String :=
  if name.length > char_len then
    (false, "The length of " ++ field ++ " should not be more than " ++
      toString char_len ++ " characters")
  else
    match name.data with
    | [] => (false, field ++ " should start with an alphabet or _ and only" ++
        " alphanumeric characters and -_ are allowed")
    | c :: rest =>
      if (c.isAlpha || c = '_') && rest.all (fun ch => isWordChar ch || ch = '-') then
        (true, "Validated the " ++ field)
      else
        (false, field ++ " should start with an alphabet or _ and only" ++
          " alphanumeric characters and -_ are allowed")

/-- Does the character list start with the given pattern? -/
def chStarts : List Char → List Char → Bool
  | [], _ => true
  | _ :: _, [] => false
  | p :: ps, c :: cs => p = c && chStarts ps cs

/-- Is the pattern an infix of the character list? -/
def chInfixOf (pat : List Char) : List Char → Bool
  | [] => chStarts pat []
  | c :: cs => chStarts pat (c :: cs) || chInfixOf pat cs

/-- The Python substring test `pat in s` on strings. -/
def strContains (s pat : String) : Bool :=
  chInfixOf pat.data s.data

/-- A cluster as seen by utils.check_status_of_cluster: its name and its
operational status. -/
structure Cluster where
  name : String
  operational_status : String
  deriving Repr, DecidableEq

/-- utils.check_status_of_cluster: walk the clusters and return the name
of the first one whose operational_status is degraded, else None. -/
def check_status_of_cluster : List Cluster → Option String
  | [] => none
  | c :: cs =>
    if c.operational_status = "degraded" then some c.name
    else check_status_of_cluster cs

/-- The version classification at lines 948-952 of the virtual-volume
module: get_vplex_setup returns a setup string, and the module treats the
setup as version 6 exactly when that string contains the substring 6.2,
and as version 7 otherwise. -/
def vplexVersionOf (version : String) : Nat :=
  if strContains version "6.2" then 6 else 7

end Vplex

namespace Vplex.SView

/-- VplexStorageview.payload: builds one patch operation. -/
def payload (operation path value : String) : PatchOp :=
  ⟨operation, path, value⟩

/-- The port URI built by get_obj_uri for one port name. -/
def portURI (cl_name port : String) : String :=
  "/vplex/v2/clusters/" ++ cl_name ++ "/exports/ports/" ++ port

/-- get_obj_uri restricted to ports: maps every port name to its URI. -/
def get_obj_uri_ports (cl_name : String) (ports : List String) : List String :=
  ports.map (portURI cl_name)

/-- The port section of update_storageview (storage-view module, lines
433-456): with port_state present-in-view, an add op is appended for every
requested port whose URI is not among the current ports of the view and
ports already present are only logged; with absent-in-view, a remove op is
appended for every requested port whose URI is among the current ports and
absent ports are only logged.  currentPorts is the ports field of the
fetched storage-view details (a list of URIs). -/
def update_storageview_ports (cl_name : String) (currentPorts : List String)
    (ports : Option (List String)) (pt_state : Option String) : List PatchOp :=
  match ports with
  | none => []
  | some ps =>
    if ps = [] then []
    else if pt_state = some "present-in-view" then
      (get_obj_uri_ports cl_name ps).filterMap fun port =>
        if currentPorts.contains port then none
        else some (payload "add" "/ports" port)
    else if pt_state = some "absent-in-view" then
      (get_obj_uri_ports cl_name ps).filterMap fun port =>
        if currentPorts.contains port then some (payload "remove" "/ports" port)
        else none
    else []

end Vplex.SView

namespace Vplex.CGMod

/-- A virtual volume as read by is_vir_vol_inuse: its name, its cluster
visibility, and the name of the consistency group holding it (the source
stores the group URI and takes its last path segment; the model stores
that last segment directly). -/
structure VVol where
  name : String
  visibility : String
  consistency_group : Option String
  deriving Repr, DecidableEq

/-- A consistency group record: its name and the URIs of its member
virtual volumes. -/
structure Grp where
  name : String
  virtual_volumes : List String
  deriving Repr, DecidableEq

/-- The remote appliance state visible to the consistency-group module:
the consistency groups of the addressed cluster, the virtual volumes of
that cluster, and the names of the appliance-wide distributed consistency
groups. -/
structure RState where
  cgs : List Grp
  vols : List VVol
  dcgs : List String
  deriving Repr, DecidableEq

/-- The module parameters of dellemc_vplex_consistency_group. -/
structure Params where
  cluster_name : String
  cg_name : String
  virtual_volumes : Option (List String)
  virtual_volume_state : Option String
  new_cg_name : Option String
  state : String
  deriving Repr, DecidableEq

/-- A mutating remote call issued by the consistency-group module. -/
inductive Call where
  | delete (cluster name : String)
  | create (cluster name : String)
  | patch (cluster name : String) (pl : List PatchOp)
  deriving Repr, DecidableEq

/-- get_v_vol_uri: the URI of a virtual volume of the cluster. -/
def get_v_vol_uri (cluster_name v_vol : String) : String :=
  "/vplex/v2/clusters/" ++ cluster_name ++ "/virtual_volumes/" ++ v_vol

/-- get_cgrp: list the consistency groups of the cluster and return the
one with the requested name, None when absent (API errors on the get are
also absorbed into None by the source). -/
def get_cgrp (s : RState) (cg_name : String) : Option Grp :=
  s.cgs.find? (fun g => g.name = cg_name)

/-- is_vir_vol_inuse: fetch the virtual volume and return its visibility
together with the name of the consistency group using it; a failing fetch
aborts the module, modelled by None. -/
def is_vir_vol_inuse (s : RState) (v_vol : String) : Option (String × Option String) :=
  (s.vols.find? (fun w => w.name = v_vol)).map
    (fun w => (w.visibility, w.consistency_group))

/-- check_name_in_distributed_cg: whether a distributed consistency group
of the appliance already carries this name. -/
def check_name_in_distributed_cg (s : RState) (cg_name : String) : Option String :=
  if s.dcgs.contains cg_name then some cg_name else none

/-- The patch operations contributed by one virtual volume of the loop at
lines 490-522: an add when the volume is in no group and the requested
direction is present-in-cg, a remove when the volume is in the addressed
group and the requested direction is absent-in-cg, nothing otherwise. -/
def volOpsFor (cluster_name cg_name vv_state : String) (owner : Option String)
    (v_vol : String) : List PatchOp :=
  (if owner = none ∧ vv_state = "present-in-cg" then
    [⟨"add", "/virtual_volumes", get_v_vol_uri cluster_name v_vol⟩] else [])
  ++ (if owner = some cg_name ∧ vv_state = "absent-in-cg" then
    [⟨"remove", "/virtual_volumes", get_v_vol_uri cluster_name v_vol⟩] else [])

/-- The loop over the requested virtual volumes (consistency-group module,
lines 490-522).  For each volume: a volume owned by a consistency group
other than the addressed one fails the invocation (for either requested
direction), a volume whose visibility is not local fails the invocation,
otherwise the volume contributes its patch operations. -/
def cgVolumeLoop (s : RState) (cluster_name cg_name vv_state : String) :
    List String → Except String (List PatchOp)
  | [] => .ok []
  | v :: rest =>
    match is_vir_vol_inuse s v with
    | none => .error ("Could not get virtual volume " ++ v ++ " in " ++ cluster_name)
    | some (visibility, owner) =>
      if ¬ (owner = some cg_name ∨ owner = none) then
        .error ("Virtual volume " ++ v ++ " is used by another Consistency group in "
          ++ cluster_name)
      else if visibility ≠ "local" then
        .error ("Virtual volume " ++ v ++ " visibility should be local")
      else
        (cgVolumeLoop s cluster_name cg_name vv_state rest).map
          (fun ops => volOpsFor cluster_name cg_name vv_state owner v ++ ops)

/-- The rename section at lines 524-554: when a new name is supplied and a
group record is at hand, validate the new name; a new name equal to the
current one is only logged; otherwise the rename fails when a consistency
group of the cluster or a distributed consistency group already carries
the new name, and else contributes a replace op on /name. -/
def cgRenameStage (s : RState) (g : Grp) (new_cg_name : String) :
    Except String (List PatchOp) :=
  if (validate_name new_cg_name 63 "new_cg_name").1 = false then
    .error (validate_name new_cg_name 63 "new_cg_name").2
  else if new_cg_name = g.name then .ok []
  else if (get_cgrp s new_cg_name).isSome then
    .error ("New Consistency group name " ++ new_cg_name ++ " already exists")
  else if (check_name_in_distributed_cg s new_cg_name).isSome then
    .error ("Could not rename consistency group " ++ new_cg_name ++
      ", already exists with same name in distributed_storage")
  else .ok [⟨"replace", "/name", new_cg_name⟩]

/-- Modelled remote behavior: the appliance applying one patch operation of
the batch addressed to the consistency group currently named cgName of the
cluster.  An add on /virtual_volumes appends the volume URI to the group
and records the group as the user of that volume, a remove deletes the URI
and clears the user, a replace on /name renames the group and rewrites the
membership reference of its volumes.  Returns the new state and the name
now carried by the addressed group. -/
def applyOp (s : RState) (cluster_name cgName : String) (op : PatchOp) :
    RState × String :=
  if op.op = "add" ∧ op.path = "/virtual_volumes" then
    ({ s with
        cgs := s.cgs.map fun g =>
          if g.name = cgName then { g with virtual_volumes := g.virtual_volumes ++ [op.value] }
          else g,
        vols := s.vols.map fun w =>
          if get_v_vol_uri cluster_name w.name = op.value then
            { w with consistency_group := some cgName }
          else w }, cgName)
  else if op.op = "remove" ∧ op.path = "/virtual_volumes" then
    ({ s with
        cgs := s.cgs.map fun g =>
          if g.name = cgName then
            { g with virtual_volumes := g.virtual_volumes.filter (fun u => u ≠ op.value) }
          else g,
        vols := s.vols.map fun w =>
          if get_v_vol_uri cluster_name w.name = op.value then
            { w with consistency_group := none }
          else w }, cgName)
  else if op.op = "replace" ∧ op.path = "/name" then
    ({ s with
        cgs := s.cgs.map fun g =>
          if g.name = cgName then { g with name := op.value } else g,
        vols := s.vols.map fun w =>
          if w.consistency_group = some cgName then
            { w with consistency_group := some op.value }
          else w }, op.value)
  else (s, cgName)

/-- Modelled remote behavior: apply a whole patch batch in order, tracking
the current name of the addressed group. -/
def applyOps (s : RState) (cluster_name cgName : String) :
    List PatchOp → RState × String
  | [] => (s, cgName)
  | op :: ops =>
    let p := applyOp s cluster_name cgName op
    applyOps p.1 cluster_name p.2 ops

/-- update_cgrp: send the patch batch and return the updated record as
re-serialized by the appliance. -/
def update_cgrp (s : RState) (cluster_name cg_name : String)
    (pl : List PatchOp) : RState × Option Grp :=
  let p := applyOps s cluster_name cg_name pl
  (p.1, p.1.cgs.find? (fun g => g.name = p.2))

/-- The part of perform_module_operation after the create branch (and
after the fetch), carrying the current details record, the changed flag,
and the calls issued so far: the virtual-volume loop, the rename stage,
and the final update when the accumulated patch payload is non-empty. -/
def cgAfterCreate (s : RState) (p : Params) (g : Grp) (changed : Bool)
    (calls : List Call) : RState × Outcome Grp × List Call :=
  match (if truthyList p.virtual_volumes ∧ truthyStr p.virtual_volume_state then
      cgVolumeLoop s p.cluster_name p.cg_name
        (p.virtual_volume_state.getD "") ((p.virtual_volumes).getD [])
    else .ok []) with
  | .error m => (s, .fail m, calls)
  | .ok volOps =>
    match (if truthyStr p.new_cg_name then
        cgRenameStage s g (p.new_cg_name.getD "")
      else .ok []) with
    | .error m => (s, .fail m, calls)
    | .ok renOps =>
      let pl := volOps ++ renOps
      if pl = [] then (s, .ok changed (some g), calls)
      else
        let r := update_cgrp s p.cluster_name p.cg_name pl
        (r.1, .ok true r.2, calls ++ [.patch p.cluster_name p.cg_name pl])

/-- perform_module_operation of the consistency-group module (lines
442-563).  The name is validated; the group is fetched; state=absent
deletes an existing group (the volumes it used are released by the
appliance) and is a logged no-op on an absent one; state=present creates
an absent group unless the name is used by a distributed consistency group
or a rename was requested in the same task; then the volume loop, the
rename stage, and one patch call for a non-empty payload; the single
terminal result carries the changed flag and the group details. -/
def cgRun (s : RState) (p : Params) : RState × Outcome Grp × List Call :=
  if (validate_name p.cg_name 63 "cg_name").1 = false then
    (s, .fail (validate_name p.cg_name 63 "cg_name").2, [])
  else
    match get_cgrp s p.cg_name with
    | some g =>
      if p.state = "absent" then
        ({ s with
            cgs := s.cgs.filter (fun g₀ => g₀.name ≠ p.cg_name),
            vols := s.vols.map fun w =>
              if w.consistency_group = some p.cg_name then
                { w with consistency_group := none }
              else w },
          .ok true none, [.delete p.cluster_name p.cg_name])
      else if p.state = "present" then
        cgAfterCreate s p g false []
      else (s, .ok false (some g), [])
    | none =>
      if p.state = "absent" then (s, .ok false none, [])
      else if p.state = "present" then
        if (check_name_in_distributed_cg s p.cg_name).isSome then
          (s, .fail ("Could not create consistency group " ++ p.cg_name ++
            " already exists with same name in distributed cg."), [])
        else if truthyStr p.new_cg_name then
          (s, .fail ("Could not perform create and rename in a single task." ++
            " Please specify each operation in single task."), [])
        else
          cgAfterCreate { s with cgs := s.cgs ++ [⟨p.cg_name, []⟩] } p
            ⟨p.cg_name, []⟩ true [.create p.cluster_name p.cg_name]
      else (s, .ok false none, [])

end Vplex.CGMod

namespace Vplex.MigMod

/-- A data-migration job record: name, source and target URIs, current
status, and transfer size. -/
structure MigJob where
  name : String
  source : String
  target : String
  status : String
  transfer_size : Int
  deriving Repr, DecidableEq

/-- The module parameters of dellemc_vplex_data_migration. -/
structure MigParams where
  migration_name : String
  source_name : Option String
  target_name : Option String
  storage : String
  transfer_size : Option Int
  status : Option String
  cluster_name : Option String
  target_cluster : Option String
  state : String
  deriving Repr, DecidableEq

/-- A value carried by a migration patch operation: the status string or
the transfer size integer. -/
inductive MigValue where
  | str (v : String)
  | int (v : Int)
  deriving Repr, DecidableEq

/-- A patch operation of the migration module. -/
structure MigPatchOp where
  op : String
  path : String
  value : MigValue
  deriving Repr, DecidableEq

/-- A mutating remote call issued by the migration module. -/
inductive MigCall where
  | create (name : String)
  | patch (name : String) (pl : List MigPatchOp)
  | delete (name : String)
  deriving Repr, DecidableEq

/-- The allow-list table of supported operations per job status (the
operations dictionary at lines 736-745).  The source raises on a status
outside the table; the model returns the empty allow-list there, which
likewise lets no operation through. -/
def operations (st : String) : List String :=
  if st = "queued" then ["cancel", "pause", "transfer size"]
  else if st = "in-progress" then ["cancel", "pause", "transfer size"]
  else if st = "paused" then ["resume", "cancel", "transfer size"]
  else if st = "commit pending" then ["commit", "cancel", "transfer size"]
  else if st = "complete" then ["commit", "cancel", "transfer size"]
  else if st = "committed" then ["transfer size"]
  else if st = "partially-committed" then ["commit"]
  else if st = "error" then ["cancel"]
  else if st = "cancelled" then ["transfer size"]
  else if st = "partially-cancelled" then ["cancel"]
  else []

/-- The idempotency table (operations_idem, lines 747-750): the job status
that makes each requested status a no-op - it is also the status the
appliance moves the job to when the patch is applied. -/
def operations_idem (st : String) : Option String :=
  if st = "commit" then some "committed"
  else if st = "pause" then some "paused"
  else if st = "resume" then some "in-progress"
  else if st = "cancel" then some "cancelled"
  else none

/-- validate_transfer_size (lines 679-698): below 40960, above 134217728,
or not a multiple of 4096 yields the failure message, anything else
passes. -/
def validate_transfer_size (transfer_size : Int) : Option String :=
  if transfer_size < 40960 then
    some ("Transfer size cannot be less than 40960 bytes. Valid range for" ++
      " transfer size is [40960-134217728] and should be multiples of 4K (4096)")
  else if transfer_size > 134217728 then
    some ("Transfer size cannot be more than 134217728 bytes. Valid range for" ++
      " transfer size is [40960-134217728] and should be multiples of 4K (4096)")
  else if transfer_size % 4096 ≠ 0 then
    some ("The transfer size should be in multiples of 4K (4096). Valid range" ++
      " for transfer size is [40960-134217728]")
  else none

/-- The status validation block (lines 796-814), given the job record at
hand and the requested status: a requested status whose idempotent target
status already holds is a logged no-op; a requested status absent from the
allow-list of the current job status fails the invocation; otherwise one
replace op on /status is contributed. -/
def statusPlan (job : MigJob) (st : String) : Except String (List MigPatchOp) :=
  if (operations_idem st).isSome ∧ some job.status = operations_idem st then
    .ok []
  else if ¬ (operations job.status).contains st then
    .error ("Could not update status of the migration job " ++ job.name ++
      " to " ++ st ++ " from " ++ job.status)
  else .ok [⟨"replace", "/status", .str st⟩]

/-- The transfer-size block (lines 816-833): a transfer size already in
effect is a logged no-op; when resizing is not in the allow-list of the
current job status the invocation fails; otherwise one replace op on
/transfer_size is contributed. -/
def transferPlan (job : MigJob) (ts : Int) : Except String (List MigPatchOp) :=
  if ts = job.transfer_size then .ok []
  else if ¬ (operations job.status).contains "transfer size" then
    .error ("Could not update transfer size of migration job " ++ job.name ++
      " when the job is in " ++ job.status ++ " state")
  else .ok [⟨"replace", "/transfer_size", .int ts⟩]

/-- Modelled remote behavior: the appliance applying one migration patch
operation to a job.  A replace on /status moves the job to the target
status of the requested operation (the operations_idem table), a replace
on /transfer_size stores the new size. -/
def applyMigOp (j : MigJob) (op : MigPatchOp) : MigJob :=
  if op.op = "replace" ∧ op.path = "/status" then
    match op.value with
    | .str v => { j with status := (operations_idem v).getD j.status }
    | .int _ => j
  else if op.op = "replace" ∧ op.path = "/transfer_size" then
    match op.value with
    | .int v => { j with transfer_size := v }
    | .str _ => j
  else j

/-- Modelled remote behavior: apply a migration patch batch to the job of
that name in the appliance job list. -/
def applyMigOps (jobs : List MigJob) (name : String) (pl : List MigPatchOp) :
    List MigJob :=
  jobs.map fun j => if j.name = name then pl.foldl applyMigOp j else j

/-- The environment of the create path: the outcome of validate_src_target
(remote reads on the source and target followed by the capacity and
ownership checks), the status the appliance gives a freshly created job as
a function of the paused flag of the create payload, and the transfer size
the appliance gives a fresh device-migration job (the module itself sets
the transfer size of a fresh extent job). -/
structure MigEnv where
  srcTargetCheck : Option String
  initStatus : Bool → String
  initTransferDevice : Int

/-- The collection URI segment per storage kind. -/
def storageURI (storage : String) : String :=
  if storage = "device" then "devices" else "extents"

/-- create_job (lines 470-517): validate the source and target, then
create the job with the constructed source and target URIs; the payload
carries paused=True exactly for a requested status of pause, and for an
extent job the requested transfer size (or the default 131072). -/
def create_job (env : MigEnv) (p : MigParams) (src_uri target_uri : String) :
    Except String MigJob :=
  match env.srcTargetCheck with
  | some m => .error m
  | none =>
    .ok { name := p.migration_name, source := src_uri, target := target_uri,
          status := env.initStatus (p.status = some "pause"),
          transfer_size :=
            if p.storage = "extent" then
              (if truthyInt p.transfer_size then p.transfer_size.getD 0 else 131072)
            else env.initTransferDevice }

/-- The tail of perform_module_operation after the create/match stage:
the status block, the transfer-size block, the single patch call for a
non-empty payload, and the delete branch. -/
def migMain (jobs : List MigJob) (p : MigParams) (job : Option MigJob)
    (create_flag : Bool) (changed : Bool) (calls : List MigCall) :
    List MigJob × Outcome MigJob × List MigCall :=
  match (match job with
    | some j =>
      if (create_flag ∧ ¬ (p.status = some "pause" ∨ p.status = none)) ∨
          (¬ create_flag ∧ truthyStr p.status) then
        statusPlan j (p.status.getD "")
      else .ok []
    | none => .ok []) with
  | .error m => (jobs, .fail m, calls)
  | .ok stOps =>
    match (match job with
      | some j =>
        if ¬ create_flag ∧ truthyInt p.transfer_size ∧ p.state = "present" then
          transferPlan j (p.transfer_size.getD 0)
        else .ok []
      | none => .ok []) with
    | .error m => (jobs, .fail m, calls)
    | .ok tsOps =>
      let pl := stOps ++ tsOps
      let jobs₂ := if pl = [] then jobs else applyMigOps jobs p.migration_name pl
      let job₂ := if pl = [] then job
        else jobs₂.find? (fun j => j.name = p.migration_name)
      let changed₂ := if pl = [] then changed else true
      let calls₂ := if pl = [] then calls
        else calls ++ [.patch p.migration_name pl]
      if job₂ = none ∧ p.state = "absent" then (jobs₂, .ok false none, calls₂)
      else if job₂.isSome ∧ p.state = "absent" then
        match job₂ with
        | some j =>
          if ¬ (j.status = "cancelled" ∨ j.status = "committed") then
            (jobs₂, .fail ("Could not remove migration record for " ++ j.name ++
              ". The migration must first be cancelled or committed."), calls₂)
          else
            (jobs₂.filter (fun j₀ => j₀.name ≠ p.migration_name), .ok true none,
              calls₂ ++ [.delete p.migration_name])
        | none => (jobs₂, .ok false none, calls₂)
      else (jobs₂, .ok changed₂ job₂, calls₂)

/-- perform_module_operation of the data-migration module (lines 712-854).
The job name is validated, the job is fetched, a truthy requested transfer
size is validated, then the create stage (an absent job with state=present
is created from source and target, an existing one must match the
requested source and target), the status and transfer-size blocks, one
patch call for a non-empty payload, and the delete branch.  The terminal
result carries the changed flag and the job details. -/
def migRun (env : MigEnv) (jobs : List MigJob) (p : MigParams) :
    List MigJob × Outcome MigJob × List MigCall :=
  if (validate_name p.migration_name 63 "migration job name").1 = false then
    (jobs, .fail (validate_name p.migration_name 63 "migration job name").2, [])
  else
    let job0 := jobs.find? (fun j => j.name = p.migration_name)
    match (if truthyInt p.transfer_size then
        validate_transfer_size (p.transfer_size.getD 0) else none) with
    | some m => (jobs, .fail m, [])
    | none =>
      let target_cluster := match p.target_cluster with
        | none => p.cluster_name
        | some t => some t
      let src_uri := "/vplex/v2/clusters/" ++ (p.cluster_name.getD "") ++ "/" ++
        storageURI p.storage ++ "/" ++ (p.source_name.getD "")
      let target_uri := "/vplex/v2/clusters/" ++ (target_cluster.getD "") ++ "/" ++
        storageURI p.storage ++ "/" ++ (p.target_name.getD "")
      match job0 with
      | none =>
        if p.state = "present" then
          if truthyStr p.source_name ∧ truthyStr p.target_name ∧
              truthyStr p.cluster_name then
            match create_job env p src_uri target_uri with
            | .error m => (jobs, .fail m, [])
            | .ok j =>
              migMain (jobs ++ [j]) p (some j) true true [.create p.migration_name]
          else
            (jobs, .fail ("Could not get the details of the migration job " ++
              p.migration_name), [])
        else migMain jobs p none false false []
      | some j =>
        if p.state = "present" ∧ truthyStr p.source_name ∧
            truthyStr p.target_name ∧ truthyStr p.cluster_name then
          if j.source = src_uri ∧ j.target = target_uri then
            migMain jobs p (some j) false false []
          else
            (jobs, .fail ("Could not create migration job " ++ p.migration_name ++
              ". The job is already present with different storage"), [])
        else migMain jobs p (some j) false false []

end Vplex.MigMod

namespace Vplex.VVolMod

/-- A mutating expand call of the virtual-volume module: one expand call
per additional device, or one backend-array expand. -/
inductive ExpCall where
  | expandDevice (dev : String)
  | expandBackend
  deriving Repr, DecidableEq

/-- The environment of the expand section: the outcome of dev_checks for a
candidate device (the remote read plus the in-use and top-level checks),
and the capacity reported by the appliance after an expand call with a
spare device respectively after a backend-array expand. -/
structure ExpEnv where
  devCheck : String → Option String
  expandCap : String → Int → Int
  backendCap : Int → Int

/-- The capacity after issuing the expand calls for the devices in order,
starting from the given capacity. -/
def capAfter (env : ExpEnv) : Int → List String → Int
  | c, [] => c
  | c, d :: ds => capAfter env (env.expandCap d c) ds

/-- The expand section of perform_module_operation of the virtual-volume
module (lines 1056-1132), entered with a volume at hand.  version is the
setup string of get_vplex_setup, children the ordered child-device list of
the supporting device after filtering (lines 1049-1053), volType the
classification of get_volume_type, capacity and expandable_capacity the
volume fields, and changed the flag accumulated by the earlier sections.
A version classified above 6 fails for a non-empty additional-device list;
a non-empty list with the expand parameter not set true fails; a mirrored
volume fails; the supplied list must be at least as long as the child list
and agree with it position by position, else the invocation fails with no
expand call; an equal list exits as a logged no-op; otherwise only the
suffix is applied, one expand call per device, and changed is set when the
final capacity exceeds the initial one.  Without additional devices, a
positive expandable capacity with expand set true triggers one
backend-array expand. -/
def expandRun (env : ExpEnv) (version : String) (children : List String)
    (volType : Option String) (additional_devs : List String)
    (expand : Option Bool) (capacity expandable_capacity : Int)
    (changed : Bool) : Outcome Int × List ExpCall :=
  if vplexVersionOf version > 6 ∧ additional_devs ≠ [] then
    (.fail ("To perform expand with additional device(s) the VPLEX version" ++
      " should be 6.2 or lesser"), [])
  else if additional_devs ≠ [] ∧ expand ≠ some true then
    (.fail ("Could not expand virtual volume, expand parameter should be" ++
      " set true to expand."), [])
  else if additional_devs ≠ [] ∧ expand = some true then
    if volType = some "mirrored" then
      (.fail "Could not expand virtual volume, volume is mirrored already, can not be expanded.", [])
    else if children.length ≤ additional_devs.length then
      if (children.zip additional_devs).any (fun pr => pr.1 ≠ pr.2) then
        (.fail "Could not expand virtual volume, additional_devices must has all the devices in an ordered list.", [])
      else if children.length = additional_devs.length then
        (.ok changed (some capacity), [])
      else
        let rest := additional_devs.drop children.length
        match rest.findSome? env.devCheck with
        | some m => (.fail m, [])
        | none =>
          let capF := capAfter env capacity rest
          (.ok (changed || decide (capacity < capF)) (some capF),
            rest.map ExpCall.expandDevice)
    else
      (.fail "Could not expand virtual volume, additional_devices must has all the devices in an ordered list.", [])
  else if expandable_capacity > 0 ∧ expand = some true then
    let capF := env.backendCap capacity
    (.ok (changed || decide (capacity < capF)) (some capF), [ExpCall.expandBackend])
  else (.ok changed (some capacity), [])

end Vplex.VVolMod

namespace Vplex.DevMod

/-- A device record as read by the device module: name, health
indications, and the URI of the virtual volume built on it when any. -/
structure Device where
  name : String
  health_indications : List String
  virtual_volume : Option String
  deriving Repr, DecidableEq

/-- A mutating remote call issued by the device module. -/
inductive DevCall where
  | delete (cluster name : String)
  deriving Repr, DecidableEq

/-- The state=absent path of perform_module_operation of the device module
(lines 765-817 and the terminal block at 1022-1035), for cluster-local
devices.  The device name is validated and the device fetched; deleting an
existing device fails when its health indications contain rebuilding, and
fails when a virtual volume sits on it; otherwise the delete call is
issued.  A device already absent leaves the no-change result.  Returns the
new device list (a subsequent get reads from it), the terminal result, and
the mutating calls. -/
def deviceAbsentRun (devs : List Device) (cluster_name device_name : String) :
    List Device × Outcome Device × List DevCall :=
  if (validate_name device_name 63 "device name").1 = false then
    (devs, .fail (validate_name device_name 63 "device name").2, [])
  else
    match devs.find? (fun d => d.name = device_name) with
    | some d =>
      if d.health_indications.contains "rebuilding" then
        (devs, .fail ("Could not delete device " ++ device_name ++
          " since device is rebuilding"), [])
      else if d.virtual_volume ≠ none then
        (devs, .fail ("Could not delete device " ++ device_name ++ " in " ++
          cluster_name ++ ", it is in use"), [])
      else
        (devs.filter (fun d₀ => d₀.name ≠ device_name), .ok true none,
          [.delete cluster_name device_name])
    | none => (devs, .ok false none, [])

end Vplex.DevMod

namespace Vplex.DCGMod

/-- A value carried by a distributed-consistency-group patch operation: a
plain string (a name or a volume URI), a boolean (auto_resume_at_loser),
or a detach-rule object. -/
inductive DVal where
  | s (v : String)
  | b (v : Bool)
  | detach (ty : String) (cluster : Option String) (delay : Option Int)
  deriving Repr, DecidableEq

/-- A patch operation of the distributed-consistency-group module. -/
structure DPatchOp where
  op : String
  path : String
  value : DVal
  deriving Repr, DecidableEq

/-- A distributed consistency group record: name, member volume URIs, the
auto-resume flag, the detach rule (its type and, for a winner rule, the
last URI segment of the winning cluster), and the per-cluster operational
status summaries. -/
structure DCG where
  name : String
  virtual_volumes : List String
  auto_resume_at_loser : Option Bool
  detach_rule_type : String
  detach_rule_cluster : Option String
  status_summaries : List String
  deriving Repr, DecidableEq

/-- A distributed virtual volume as read by is_distributed_volume_inuse:
name, locality, and the name of the distributed consistency group using it
(the source stores the group URI and takes its last path segment; the
model stores that last segment directly). -/
structure DVol where
  name : String
  locality : String
  consistency_group : Option String
  deriving Repr, DecidableEq

/-- The remote appliance state visible to the distributed-consistency-
group module: the distributed groups, the clusters, the cluster-local
consistency group names per cluster, and the distributed virtual
volumes. -/
structure DState where
  dcgs : List DCG
  clusters : List Cluster
  clusterCGs : List (String × List String)
  dvols : List DVol
  deriving Repr, DecidableEq

/-- The module parameters of dellemc_vplex_distributed_consistency_group. -/
structure DParams where
  distributed_cg_name : String
  distributed_virtual_volumes : Option (List String)
  distributed_virtual_volume_state : Option String
  new_distributed_cg_name : Option String
  state : String
  detach_rule : Option String
  auto_resume_at_loser : Option Bool
  resume_at : Option String
  deriving Repr, DecidableEq

/-- A mutating remote call issued by the distributed-consistency-group
module. -/
inductive DCall where
  | delete (name : String)
  | create (name : String)
  | resume (name : String)
  | patch (name : String) (pl : List DPatchOp)
  deriving Repr, DecidableEq

/-- The environment of the create path: the record the appliance returns
for a freshly created distributed consistency group of a given name. -/
structure DEnv where
  freshDCG : String → DCG

/-- get_d_cgrp: fetch the distributed consistency group by name, None when
absent. -/
def get_d_cgrp (s : DState) (name : String) : Option DCG :=
  s.dcgs.find? (fun g => g.name = name)

/-- list_clusters: the names of the clusters. -/
def list_clusters (s : DState) : List String :=
  s.clusters.map (fun c => c.name)

/-- check_name_in_clusters: the first cluster holding a cluster-local
consistency group of this name, None when there is none. -/
def check_name_in_clusters (s : DState) (name : String) : Option String :=
  (s.clusterCGs.find? (fun pr => pr.2.contains name)).map (fun pr => pr.1)

/-- is_distributed_volume_inuse: fetch the distributed virtual volume and
return its locality together with the name of the distributed consistency
group using it; a failing fetch aborts the module, modelled by None. -/
def is_distributed_volume_inuse (s : DState) (v : String) :
    Option (String × Option String) :=
  (s.dvols.find? (fun w => w.name = v)).map
    (fun w => (w.locality, w.consistency_group))

/-- The URI of a distributed virtual volume. -/
def dvol_uri (v : String) : String :=
  "/vplex/v2/distributed_storage/distributed_virtual_volumes/" ++ v

/-- The loop over the requested distributed virtual volumes (lines
541-581): a volume whose locality is not distributed fails, a volume used
by another distributed consistency group fails, otherwise an add op for an
unowned volume with direction present-in-cg and a remove op for a volume
of the addressed group with direction absent-in-cg. -/
def dcgVolumeLoop (s : DState) (dr_cg_name vv_state : String) :
    List String → Except String (List DPatchOp)
  | [] => .ok []
  | v :: rest =>
    match is_distributed_volume_inuse s v with
    | none => .error ("Could not get distributed virtual volume " ++ v)
    | some (locality, owner) =>
      if locality ≠ "distributed" then
        .error ("Virtual volume " ++ v ++ " locality should be distributed")
      else if ¬ (owner = some dr_cg_name ∨ owner = none) then
        .error ("Distributed virtual volume " ++ v ++
          " used by another distributed consistency group")
      else
        (dcgVolumeLoop s dr_cg_name vv_state rest).map fun ops =>
          ((if owner = none ∧ vv_state = "present-in-cg" then
            [⟨"add", "/virtual_volumes", .s (dvol_uri v)⟩] else [])
          ++ (if owner = some dr_cg_name ∧ vv_state = "absent-in-cg" then
            [⟨"remove", "/virtual_volumes", .s (dvol_uri v)⟩] else [])) ++ ops

/-- The auto-resume section (lines 583-595): an auto_resume_at_loser value
already in effect is only logged, a different one contributes a replace
op. -/
def dcgAutoStage (d : DCG) (auto : Bool) : List DPatchOp :=
  if some auto = d.auto_resume_at_loser then []
  else [⟨"replace", "/auto_resume_at_loser", .b auto⟩]

/-- The detach-rule section (lines 597-640): a detach rule outside
no_automatic_winner and the cluster names fails; a rule equal to the
current type is only logged; no_automatic_winner contributes a replace op;
a winner rule naming the current winning cluster is only logged; any other
cluster contributes a replace op with a winner object and delay 5. -/
def dcgDetachStage (s : DState) (d : DCG) (detach_rule : String) :
    Except String (List DPatchOp) :=
  if ¬ ("no_automatic_winner" :: list_clusters s).contains detach_rule then
    .error ("Provided detach_rule is invalid " ++ detach_rule)
  else if detach_rule = d.detach_rule_type then .ok []
  else if detach_rule = "no_automatic_winner" then
    .ok [⟨"replace", "/detach_rule", .detach detach_rule none none⟩]
  else if d.detach_rule_type = "winner" ∧ d.detach_rule_cluster = some detach_rule then
    .ok []
  else
    .ok [⟨"replace", "/detach_rule",
      .detach "winner" (some ("/vplex/v2/clusters/" ++ detach_rule)) (some 5)⟩]

/-- The rename section (lines 642-670): the new name is validated; a new
name equal to the current one is only logged; a name used by another
distributed consistency group fails; a name used by a cluster-local
consistency group of any cluster fails; otherwise a replace op on /name is
contributed. -/
def dcgRenameStage (s : DState) (d : DCG) (new_name : String) :
    Except String (List DPatchOp) :=
  if (validate_name new_name 63 "new_distributed_cg_name").1 = false then
    .error (validate_name new_name 63 "new_distributed_cg_name").2
  else if new_name = d.name then .ok []
  else if (get_d_cgrp s new_name).isSome then
    .error ("New distributed consistency group name " ++ new_name ++
      ", already exists")
  else if (check_name_in_clusters s new_name).isSome then
    .error ("Could not rename distributed consistency group " ++ new_name ++
      ", already exists with same name in a cluster")
  else .ok [⟨"replace", "/name", .s new_name⟩]

/-- The last URI segment of a cluster URI (the split at the slashes in the
source). -/
def detachClusterSeg (u : String) : String :=
  (u.splitOn "/").getLastD ""

/-- Modelled remote behavior: the appliance applying one patch operation
of the batch addressed to the distributed consistency group currently
named cgName.  Returns the new state and the name now carried by the
group. -/
def dcgApplyOp (s : DState) (cgName : String) (op : DPatchOp) :
    DState × String :=
  if op.op = "add" ∧ op.path = "/virtual_volumes" then
    ({ s with
        dcgs := s.dcgs.map fun g =>
          if g.name = cgName then
            { g with virtual_volumes := g.virtual_volumes ++ [match op.value with | .s v => v | _ => ""] }
          else g,
        dvols := s.dvols.map fun w =>
          if dvol_uri w.name = (match op.value with | .s v => v | _ => "") then
            { w with consistency_group := some cgName }
          else w }, cgName)
  else if op.op = "remove" ∧ op.path = "/virtual_volumes" then
    ({ s with
        dcgs := s.dcgs.map fun g =>
          if g.name = cgName then
            { g with virtual_volumes :=
              g.virtual_volumes.filter (fun u => DVal.s u ≠ op.value) }
          else g,
        dvols := s.dvols.map fun w =>
          if DVal.s (dvol_uri w.name) = op.value then
            { w with consistency_group := none }
          else w }, cgName)
  else if op.op = "replace" ∧ op.path = "/auto_resume_at_loser" then
    ({ s with dcgs := s.dcgs.map fun g =>
        if g.name = cgName then
          { g with auto_resume_at_loser := match op.value with | .b v => some v | _ => g.auto_resume_at_loser }
        else g }, cgName)
  else if op.op = "replace" ∧ op.path = "/detach_rule" then
    ({ s with dcgs := s.dcgs.map fun g =>
        if g.name = cgName then
          match op.value with
          | .detach ty cl _ =>
            { g with detach_rule_type := ty, detach_rule_cluster := cl.map detachClusterSeg }
          | _ => g
        else g }, cgName)
  else if op.op = "replace" ∧ op.path = "/name" then
    (match op.value with
    | .s v =>
      ({ s with
          dcgs := s.dcgs.map fun g => if g.name = cgName then { g with name := v } else g,
          dvols := s.dvols.map fun w =>
            if w.consistency_group = some cgName then { w with consistency_group := some v }
            else w }, v)
    | _ => (s, cgName))
  else (s, cgName)

/-- Modelled remote behavior: apply a whole patch batch in order. -/
def dcgApplyOps (s : DState) (cgName : String) : List DPatchOp → DState × String
  | [] => (s, cgName)
  | op :: ops =>
    let p := dcgApplyOp s cgName op
    dcgApplyOps p.1 p.2 ops

/-- update_d_cgrp: send the patch batch and return the updated record. -/
def update_d_cgrp (s : DState) (name : String) (pl : List DPatchOp) :
    DState × Option DCG :=
  let p := dcgApplyOps s name pl
  (p.1, p.1.dcgs.find? (fun g => g.name = p.2))

/-- The tail of the run once the degraded gate and the delete branch are
passed: the resume block, the create stage, the volume loop, the
auto-resume, detach-rule and rename sections, and one patch call for a
non-empty payload. -/
def dcgPresentTail (env : DEnv) (s : DState) (p : DParams)
    (details : Option DCG) (changed : Bool) (calls : List DCall) :
    DState × Outcome DCG × List DCall :=
  -- resume block, lines 490-513
  match ((match details with
    | some d =>
      if truthyStr p.resume_at then
        if ¬ (list_clusters s).contains (p.resume_at.getD "") then
          .error ("Provided resume_at cluster " ++ p.resume_at.getD "" ++
            " is invalid")
        else if d.virtual_volumes = [] then
          .error ("Could not resume the distributed consistency " ++
            p.distributed_cg_name ++ ", since no virtual volume is present")
        else
          .ok (d.status_summaries.getD 0 "" == "suspended" &&
            d.status_summaries.getD 1 "" == "suspended")
      else .ok false
    | none => .ok false) : Except String Bool) with
  | .error m => (s, .fail m, calls)
  | .ok doResume =>
    let changed := if doResume then true else changed
    let calls := if doResume then calls ++ [.resume p.distributed_cg_name] else calls
    -- create stage, lines 515-539
    match ((match details with
      | some d => Except.ok (d, changed, calls, false)
      | none =>
        if truthyStr p.new_distributed_cg_name then
          .error ("Could not perform create and rename in a single task." ++
            " Please specify each operation in individual task.")
        else if truthyStr p.resume_at then
          .error ("Could not resume distributed consistency group " ++
            p.distributed_cg_name ++ ", as it does not exists")
        else if (check_name_in_clusters s p.distributed_cg_name).isSome then
          .error ("Could not create the distributed consistency group " ++
            p.distributed_cg_name ++ ", already exists with same name in a cluster")
        else .ok (env.freshDCG p.distributed_cg_name, true,
          calls ++ [.create p.distributed_cg_name], true)) :
        Except String (DCG × Bool × List DCall × Bool)) with
    | .error m => (s, .fail m, calls)
    | .ok (d, changed, calls, created) =>
      let s := if created then { s with dcgs := s.dcgs ++ [d] } else s
      -- volume loop
      match (if truthyList p.distributed_virtual_volumes ∧
          truthyStr p.distributed_virtual_volume_state then
          dcgVolumeLoop s p.distributed_cg_name
            (p.distributed_virtual_volume_state.getD "")
            (p.distributed_virtual_volumes.getD [])
        else .ok []) with
      | .error m => (s, .fail m, calls)
      | .ok volOps =>
        let autoOps := match p.auto_resume_at_loser with
          | some a => dcgAutoStage d a
          | none => []
        match (match p.detach_rule with
          | some dr => if truthyStr p.detach_rule then dcgDetachStage s d dr else .ok []
          | none => .ok []) with
        | .error m => (s, .fail m, calls)
        | .ok detOps =>
          match (if truthyStr p.new_distributed_cg_name then
              dcgRenameStage s d (p.new_distributed_cg_name.getD "")
            else .ok []) with
          | .error m => (s, .fail m, calls)
          | .ok renOps =>
            let pl := volOps ++ autoOps ++ detOps ++ renOps
            if pl = [] then (s, .ok changed (some d), calls)
            else
              let r := update_d_cgrp s p.distributed_cg_name pl
              (r.1, .ok true r.2, calls ++ [.patch p.distributed_cg_name pl])

/-- perform_module_operation of the distributed-consistency-group module
(lines 434-677).  The name is validated and the group fetched; the
degraded cluster, when any, blocks the delete of an existing group and,
for state=present, blocks create, rename, detach-rule change, volume
membership change and the auto-resume toggle, while a plain present
request on an existing group passes through; then the delete branch and
the present tail. -/
def dcgRun (env : DEnv) (s : DState) (p : DParams) :
    DState × Outcome DCG × List DCall :=
  if (validate_name p.distributed_cg_name 63 "distributed_cg_name").1 = false then
    (s, .fail (validate_name p.distributed_cg_name 63 "distributed_cg_name").2, [])
  else
    let details := get_d_cgrp s p.distributed_cg_name
    let degraded := check_status_of_cluster s.clusters
    if p.state = "absent" then
      if degraded.isSome ∧ details.isSome then
        (s, .fail ("Could not delete as " ++ degraded.getD "" ++ " is degraded"), [])
      else if degraded.isSome ∨ details = none then
        (s, .ok false none, [])
      else
        ({ s with
            dcgs := s.dcgs.filter (fun g => g.name ≠ p.distributed_cg_name),
            dvols := s.dvols.map fun w =>
              if w.consistency_group = some p.distributed_cg_name then
                { w with consistency_group := none }
              else w },
          .ok true none, [.delete p.distributed_cg_name])
    else if p.state = "present" then
      if degraded.isSome ∧ truthyStr p.resume_at ∧ details = none then
        (s, .fail ("Could not perform resume as consistency group " ++
          p.distributed_cg_name ++ " not found"), [])
      else if degraded.isSome ∧ (details = none ∨
          truthyStr p.new_distributed_cg_name ∨ truthyStr p.detach_rule ∨
          truthyList p.distributed_virtual_volumes ∨
          p.auto_resume_at_loser ≠ none) then
        (s, .fail ("Could not perform the operation as " ++ degraded.getD "" ++
          " is degraded"), [])
      else dcgPresentTail env s p details false []
    else (s, .ok false details, [])

end Vplex.DCGMod

namespace Vplex

/-- A migration environment for concrete evaluations: source and target
validation passes, a fresh job starts in-progress (paused when asked), and
a fresh device job carries the default transfer size. -/
def migEnv0 : MigMod.MigEnv :=
  ⟨none, fun paused => if paused then "paused" else "in-progress", 131072⟩

/-- An expand environment for concrete evaluations in which every expand
call leaves the capacity unchanged. -/
def expEnvConst : VVolMod.ExpEnv :=
  ⟨fun _ => none, fun _ c => c, fun c => c⟩

/-- An expand environment for concrete evaluations in which every expand
call grows the capacity by one. -/
def expEnvStep : VVolMod.ExpEnv :=
  ⟨fun _ => none, fun _ c => c + 1, fun c => c + 1⟩

/-- A concrete extent-migration job used in closed evaluations. -/
def job0 : MigMod.MigJob :=
  ⟨"mobj1", "/vplex/v2/clusters/cluster-1/extents/e1",
    "/vplex/v2/clusters/cluster-1/extents/e2", "in-progress", 131072⟩

/-- A concrete migration request carrying transfer_size 0 on the existing
job, with no other change requested. -/
def migP0 : MigMod.MigParams :=
  ⟨"mobj1", none, none, "extent", some 0, none, some "cluster-1", none, "present"⟩

/-- A concrete device whose health indications contain queued but not
rebuilding, with no virtual volume on it. -/
def dev0 : DevMod.Device := ⟨"dev1", ["queued"], none⟩

/-- A distributed-consistency-group environment for concrete evaluations:
a fresh group starts empty with a no_automatic_winner detach rule. -/
def dEnv0 : DCGMod.DEnv :=
  ⟨fun n => ⟨n, [], none, "no_automatic_winner", none, []⟩⟩

/-- A concrete distributed consistency group used in closed evaluations. -/
def dcg0 : DCGMod.DCG := ⟨"dcg1", [], some true, "no_automatic_winner", none, []⟩

/-- A concrete appliance state with one degraded cluster and one
distributed consistency group. -/
def dState0 : DCGMod.DState :=
  ⟨[dcg0], [⟨"cluster-1", "degraded"⟩, ⟨"cluster-2", "ok"⟩],
    [("cluster-1", []), ("cluster-2", [])], []⟩

/-- The capacity trace along a sequence of expand calls: the capacity
before the first call followed by the capacity after each call. -/
def capTrace (env : VVolMod.ExpEnv) : Int → List String → List Int
  | c, [] => [c]
  | c, d :: ds => c :: capTrace env (env.expandCap d c) ds

/-- A concrete cluster state for the consistency-group module: group cg1
with no members, and the local volume v1 held by the group cg2. -/
def cgS1 : CGMod.RState :=
  ⟨[⟨"cg1", []⟩], [⟨"v1", "local", some "cg2"⟩], []⟩

/-- A concrete request: state=present on cg1, asking volume v1 to be
absent-in-cg. -/
def cgP1 : CGMod.Params :=
  ⟨"cluster-1", "cg1", some ["v1"], some "absent-in-cg", none, "present"⟩

/-- The effect of a batch of add and remove operations on
/virtual_volumes on the recorded user of one volume URI, as applied in
order by the modelled appliance (consistency-group module). -/
def cgOwnerAfter (n uri : String) : List PatchOp → Option String → Option String
  | [], o => o
  | op :: ops, o =>
    cgOwnerAfter n uri ops
      (if op.op = "add" ∧ op.path = "/virtual_volumes" then
        (if op.value = uri then some n else o)
      else if op.op = "remove" ∧ op.path = "/virtual_volumes" then
        (if op.value = uri then none else o)
      else o)

namespace MigMod

/-- The final section of perform_module_operation of the migration module
(lines 839-854) as a standalone function of the accumulated patch payload:
the single patch call for a non-empty payload and the delete branch. -/
def migTail (jobs : List MigJob) (p : MigParams) (job : Option MigJob)
    (changed : Bool) (calls : List MigCall) (pl : List MigPatchOp) :
    List MigJob × Outcome MigJob × List MigCall :=
  let jobs₂ := if pl = [] then jobs else applyMigOps jobs p.migration_name pl
  let job₂ := if pl = [] then job
    else jobs₂.find? (fun j => j.name = p.migration_name)
  let changed₂ := if pl = [] then changed else true
  let calls₂ := if pl = [] then calls
    else calls ++ [.patch p.migration_name pl]
  if job₂ = none ∧ p.state = "absent" then (jobs₂, .ok false none, calls₂)
  else if job₂.isSome ∧ p.state = "absent" then
    match job₂ with
    | some j =>
      if ¬ (j.status = "cancelled" ∨ j.status = "committed") then
        (jobs₂, .fail ("Could not remove migration record for " ++ j.name ++
          ". The migration must first be cancelled or committed."), calls₂)
      else
        (jobs₂.filter (fun j₀ => j₀.name ≠ p.migration_name), .ok true none,
          calls₂ ++ [.delete p.migration_name])
    | none => (jobs₂, .ok false none, calls₂)
  else (jobs₂, .ok changed₂ job₂, calls₂)

end MigMod

-- ===== THEOREMS: new definitions go above this marker =====

/-- C10: for a state=present virtual-volume request supplying a non-empty
additional_devices list, whenever the setup string reported by the
appliance does not contain 6.2, the module classifies the setup as version
7 and the expand section fails at its version gate before issuing any
expand call, regardless of the supplied list. -/
theorem c10_version_gate_on_expansion
    (env : VVolMod.ExpEnv) (version : String) (children : List String)
    (volType : Option String) (devs : List String) (expand : Option Bool)
    (cap ecap : Int) (changed : Bool)
    (hver : strContains version "6.2" = false) (hdevs : devs ≠ []) :
    vplexVersionOf version = 7 ∧
    VVolMod.expandRun env version children volType devs expand cap ecap changed =
      (.fail ("To perform expand with additional device(s) the VPLEX version" ++
        " should be 6.2 or lesser"), []) := by
  have h7 : vplexVersionOf version = 7 := by
    simp [vplexVersionOf, hver]
  refine ⟨h7, ?_⟩
  rw [VVolMod.expandRun, if_pos ⟨by rw [h7]; norm_num, hdevs⟩]

/-- Witness for C10 at a version string without 6.2 and a one-element
device list. -/
theorem c10_version_gate_on_expansion_witness :
    vplexVersionOf "VPLEX setup in use 7.0.1" = 7 ∧
    VVolMod.expandRun expEnvStep "VPLEX setup in use 7.0.1" ["D1"] none
      ["D1", "D2"] (some true) 100 0 false =
      (.fail ("To perform expand with additional device(s) the VPLEX version" ++
        " should be 6.2 or lesser"), []) :=
  c10_version_gate_on_expansion expEnvStep "VPLEX setup in use 7.0.1" ["D1"]
    none ["D1", "D2"] (some true) 100 0 false (by decide) (by decide)

/-- C5 (amended): validate_transfer_size passes a value exactly when it
lies in the closed range 40960 to 134217728 and is a multiple of 4096; the
bounds themselves pass while 40959 and 40961 fail; and a supplied nonzero
invalid transfer size makes the whole run fail with the validation message
and no mutating call - the value is never sent to the remote side. -/
theorem c5_transfer_size_validation_amended :
    (∀ ts : Int, MigMod.validate_transfer_size ts = none ↔
      (40960 ≤ ts ∧ ts ≤ 134217728 ∧ ts % 4096 = 0)) ∧
    MigMod.validate_transfer_size 40960 = none ∧
    MigMod.validate_transfer_size 134217728 = none ∧
    (MigMod.validate_transfer_size 40959).isSome = true ∧
    (MigMod.validate_transfer_size 40961).isSome = true ∧
    (∀ (env : MigMod.MigEnv) (jobs : List MigMod.MigJob) (p : MigMod.MigParams)
      (ts : Int) (m : String),
      (validate_name p.migration_name 63 "migration job name").1 = true →
      p.transfer_size = some ts → ts ≠ 0 →
      MigMod.validate_transfer_size ts = some m →
      MigMod.migRun env jobs p = (jobs, .fail m, [])) := by
  refine ⟨?_, by decide, by decide, by decide, by decide, ?_⟩
  · intro ts
    unfold MigMod.validate_transfer_size
    split_ifs with h₁ h₂ h₃
    · exact iff_of_false (by simp) (by omega)
    · exact iff_of_false (by simp) (by omega)
    · exact iff_of_false (by simp) (by omega)
    · exact iff_of_true rfl (by omega)
  · intro env jobs p ts m hname hts hne hval
    unfold MigMod.migRun
    rw [hname]
    simp only [Bool.true_eq_false, if_false, hts]
    have ht : truthyInt (some ts) = true := by simp [truthyInt, hne]
    rw [ht]
    simp [hval]

/-- Witness for C5 at transfer size 39 on an empty job list. -/
theorem c5_transfer_size_validation_amended_witness :
    MigMod.migRun migEnv0 [] ⟨"mobj1", none, none, "extent", some 39, none,
        some "cluster-1", none, "present"⟩ =
      ([], .fail ("Transfer size cannot be less than 40960 bytes. Valid range for" ++
        " transfer size is [40960-134217728] and should be multiples of 4K (4096)"), []) :=
  c5_transfer_size_validation_amended.2.2.2.2.2 migEnv0 []
    ⟨"mobj1", none, none, "extent", some 39, none, some "cluster-1", none, "present"⟩
    39 _ (by decide) rfl (by decide) rfl

/-- Counterexample for C5 as stated: transfer_size 0 is supplied and is
invalid (it is below 40960), yet the invocation is not rejected - the
falsy value skips validation entirely and the run exits successfully. -/
theorem c5_counterexample_zero_not_rejected :
    MigMod.migRun migEnv0 [job0] migP0 = ([job0], .ok false (some job0), []) ∧
    ¬ (40960 ≤ (0 : Int) ∧ (0 : Int) ≤ 134217728 ∧ (0 : Int) % 4096 = 0) := by
  constructor
  · decide
  · decide

/-- C4: the allow-list table of the migration module is exactly as stated
(queued and in-progress allow cancel, pause and transfer size; paused
allows resume, cancel and transfer size; commit pending and complete allow
commit, cancel and transfer size; committed allows only transfer size;
error allows only cancel); a status patch is emitted only when the request
is in the allow-list of the current status; a request whose idempotent
target status already holds is a no-op; a request outside the allow-list
that is not such a no-op fails; status=commit fails on a queued job; and
status=cancel on a paused job emits the patch whose application moves the
job to cancelled. -/
theorem c4_migration_state_machine :
    (MigMod.operations "queued" = ["cancel", "pause", "transfer size"] ∧
     MigMod.operations "in-progress" = ["cancel", "pause", "transfer size"] ∧
     MigMod.operations "paused" = ["resume", "cancel", "transfer size"] ∧
     MigMod.operations "commit pending" = ["commit", "cancel", "transfer size"] ∧
     MigMod.operations "complete" = ["commit", "cancel", "transfer size"] ∧
     MigMod.operations "committed" = ["transfer size"] ∧
     MigMod.operations "error" = ["cancel"]) ∧
    (∀ (job : MigMod.MigJob) (st : String) (ops : List MigMod.MigPatchOp),
      MigMod.statusPlan job st = .ok ops → ops ≠ [] →
      (MigMod.operations job.status).contains st = true) ∧
    (∀ (job : MigMod.MigJob) (st tgt : String),
      MigMod.operations_idem st = some tgt → job.status = tgt →
      MigMod.statusPlan job st = .ok []) ∧
    (∀ (job : MigMod.MigJob) (st : String),
      ¬ (MigMod.operations_idem st = some job.status) →
      (MigMod.operations job.status).contains st = false →
      ∃ m, MigMod.statusPlan job st = .error m) ∧
    (∀ job : MigMod.MigJob, job.status = "queued" →
      ∃ m, MigMod.statusPlan job "commit" = .error m) ∧
    (∀ job : MigMod.MigJob, job.status = "paused" →
      MigMod.statusPlan job "cancel" = .ok [⟨"replace", "/status", .str "cancel"⟩] ∧
      MigMod.applyMigOp job ⟨"replace", "/status", .str "cancel"⟩ =
        { job with status := "cancelled" }) := by
  refine ⟨by decide, ?_, ?_, ?_, ?_, ?_⟩
  · intro job st ops hok hne
    unfold MigMod.statusPlan at hok
    split_ifs at hok with h₁ h₂
    · cases hok; exact absurd rfl hne
    · cases hok; exact h₂
  · intro job st tgt hidem hst
    unfold MigMod.statusPlan
    rw [if_pos ⟨by rw [hidem]; rfl, by rw [hidem, hst]⟩]
  · intro job st hnidem hcont
    unfold MigMod.statusPlan
    have h₁ : ¬ ((MigMod.operations_idem st).isSome ∧
        some job.status = MigMod.operations_idem st) := by
      rintro ⟨-, h⟩
      exact hnidem h.symm
    rw [if_neg h₁, if_pos (by rw [hcont]; decide)]
    exact ⟨_, rfl⟩
  · intro job h
    unfold MigMod.statusPlan
    rw [h]
    rw [if_neg (by decide), if_pos (by decide)]
    exact ⟨_, rfl⟩
  · intro job h
    constructor
    · unfold MigMod.statusPlan
      rw [h]
      rw [if_neg (by decide), if_neg (by decide)]
    · simp [MigMod.applyMigOp, MigMod.operations_idem]

/-- Witness for C4: status=commit fails on a concrete queued job, and
status=cancel on the same job paused emits the patch moving it to
cancelled. -/
theorem c4_migration_state_machine_witness :
    (∃ m, MigMod.statusPlan ⟨"mobj1", "s", "t", "queued", 131072⟩ "commit" =
      .error m) ∧
    MigMod.statusPlan ⟨"mobj1", "s", "t", "paused", 131072⟩ "cancel" =
      .ok [⟨"replace", "/status", .str "cancel"⟩] :=
  ⟨c4_migration_state_machine.2.2.2.2.1 ⟨"mobj1", "s", "t", "queued", 131072⟩ rfl,
   (c4_migration_state_machine.2.2.2.2.2 ⟨"mobj1", "s", "t", "paused", 131072⟩ rfl).1⟩

/-- C7 (amended): a state=absent request for an existing device fails
without issuing any delete call when the health indications of the device
contain rebuilding, and likewise when the device currently has a non-null
virtual volume; in either case the device list is left untouched, so a
subsequent get returns the unchanged record.  (The queued indication is
not checked by the device delete path; it gates rebuild_status in the
virtual-volume modules.) -/
theorem c7_device_delete_preconditions_amended :
    (∀ (devs : List DevMod.Device) (cl dn : String) (d : DevMod.Device),
      (validate_name dn 63 "device name").1 = true →
      devs.find? (fun d₀ => d₀.name = dn) = some d →
      d.health_indications.contains "rebuilding" = true →
      DevMod.deviceAbsentRun devs cl dn =
        (devs, .fail ("Could not delete device " ++ dn ++
          " since device is rebuilding"), []) ∧
      (DevMod.deviceAbsentRun devs cl dn).1.find? (fun d₀ => d₀.name = dn) = some d) ∧
    (∀ (devs : List DevMod.Device) (cl dn : String) (d : DevMod.Device),
      (validate_name dn 63 "device name").1 = true →
      devs.find? (fun d₀ => d₀.name = dn) = some d →
      d.health_indications.contains "rebuilding" = false →
      d.virtual_volume ≠ none →
      DevMod.deviceAbsentRun devs cl dn =
        (devs, .fail ("Could not delete device " ++ dn ++ " in " ++ cl ++
          ", it is in use"), []) ∧
      (DevMod.deviceAbsentRun devs cl dn).1.find? (fun d₀ => d₀.name = dn) = some d) := by
  constructor
  · intro devs cl dn d hname hfind hreb
    have hrun : DevMod.deviceAbsentRun devs cl dn =
        (devs, .fail ("Could not delete device " ++ dn ++
          " since device is rebuilding"), []) := by
      unfold DevMod.deviceAbsentRun
      rw [hname]
      simp only [Bool.true_eq_false, if_false]
      rw [hfind]
      have hreb' : "rebuilding" ∈ d.health_indications := by simpa using hreb
      simp [hreb']
    exact ⟨hrun, by rw [hrun]; exact hfind⟩
  · intro devs cl dn d hname hfind hreb hvol
    have hrun : DevMod.deviceAbsentRun devs cl dn =
        (devs, .fail ("Could not delete device " ++ dn ++ " in " ++ cl ++
          ", it is in use"), []) := by
      unfold DevMod.deviceAbsentRun
      rw [hname]
      simp only [Bool.true_eq_false, if_false]
      rw [hfind]
      have hreb' : "rebuilding" ∉ d.health_indications := by simpa using hreb
      simp [hreb', hvol]
    exact ⟨hrun, by rw [hrun]; exact hfind⟩

/-- Witness for C7 on a one-device list that is rebuilding. -/
theorem c7_device_delete_preconditions_amended_witness :
    DevMod.deviceAbsentRun [⟨"dev1", ["rebuilding"], none⟩] "cluster-1" "dev1" =
      ([⟨"dev1", ["rebuilding"], none⟩], .fail ("Could not delete device " ++
        "dev1" ++ " since device is rebuilding"), []) :=
  (c7_device_delete_preconditions_amended.1 [⟨"dev1", ["rebuilding"], none⟩]
    "cluster-1" "dev1" ⟨"dev1", ["rebuilding"], none⟩ (by decide) (by decide)
    (by decide)).1

/-- Counterexample for C7 as stated: a device whose health indications
contain queued (but not rebuilding) and with no virtual volume is deleted
- the delete call is issued and the run reports changed - where the claim
demands a failure with no delete call. -/
theorem c7_counterexample_queued_is_deleted :
    DevMod.deviceAbsentRun [dev0] "cluster-1" "dev1" =
      ([], .ok true none, [.delete "cluster-1" "dev1"]) := by
  decide

/-- C6: with any cluster reporting operational_status degraded, deleting
an existing distributed consistency group fails with no mutating call and
an unchanged state; any state=present request that would create, rename,
change the detach rule, change the volume membership, or toggle
auto_resume_at_loser fails likewise; while a state=present request with no
mutation parameters on an existing group succeeds and returns the current
record with changed=false. -/
theorem c6_degraded_cluster_gating :
    (∀ (env : DCGMod.DEnv) (s : DCGMod.DState) (p : DCGMod.DParams)
      (dg : String) (d : DCGMod.DCG),
      (validate_name p.distributed_cg_name 63 "distributed_cg_name").1 = true →
      check_status_of_cluster s.clusters = some dg →
      DCGMod.get_d_cgrp s p.distributed_cg_name = some d →
      p.state = "absent" →
      DCGMod.dcgRun env s p =
        (s, .fail ("Could not delete as " ++ dg ++ " is degraded"), [])) ∧
    (∀ (env : DCGMod.DEnv) (s : DCGMod.DState) (p : DCGMod.DParams)
      (dg : String),
      (validate_name p.distributed_cg_name 63 "distributed_cg_name").1 = true →
      check_status_of_cluster s.clusters = some dg →
      p.state = "present" →
      (DCGMod.get_d_cgrp s p.distributed_cg_name = none ∨
        truthyStr p.new_distributed_cg_name = true ∨
        truthyStr p.detach_rule = true ∨
        truthyList p.distributed_virtual_volumes = true ∨
        p.auto_resume_at_loser ≠ none) →
      ∃ m, DCGMod.dcgRun env s p = (s, .fail m, [])) ∧
    (∀ (env : DCGMod.DEnv) (s : DCGMod.DState) (p : DCGMod.DParams)
      (dg : String) (d : DCGMod.DCG),
      (validate_name p.distributed_cg_name 63 "distributed_cg_name").1 = true →
      check_status_of_cluster s.clusters = some dg →
      p.state = "present" →
      DCGMod.get_d_cgrp s p.distributed_cg_name = some d →
      p.new_distributed_cg_name = none → p.detach_rule = none →
      p.distributed_virtual_volumes = none → p.auto_resume_at_loser = none →
      p.resume_at = none →
      DCGMod.dcgRun env s p = (s, .ok false (some d), [])) := by
  refine ⟨?_, ?_, ?_⟩
  · intro env s p dg d hname hdeg hdet hstate
    unfold DCGMod.dcgRun
    rw [hname]
    simp [hstate, hdeg, hdet]
  · intro env s p dg hname hdeg hstate hmut
    unfold DCGMod.dcgRun
    rw [hname]
    simp only [Bool.true_eq_false, if_false, hstate, hdeg]
    rw [if_neg (by decide : ¬("present" : String) = "absent")]
    rw [if_pos trivial]
    split_ifs with h₂ h₃
    · exact ⟨_, rfl⟩
    · exact ⟨_, rfl⟩
    · exact absurd ⟨by simp, hmut⟩ h₃
  · intro env s p dg d hname hdeg hstate hdet hnew hdr hdv hauto hres
    unfold DCGMod.dcgRun
    rw [hname]
    simp only [Bool.true_eq_false, if_false, hstate, hdeg, hdet, hnew, hdr,
      hdv, hauto, hres]
    simp only [truthyStr, truthyList, Bool.false_eq_true, false_and, and_false,
      if_false, reduceIte]
    unfold DCGMod.dcgPresentTail
    simp [hres, hnew, hdr, hdv, hauto, truthyStr, truthyList]

/-- Witness for C6: with cluster-1 degraded, a plain state=present request
on the existing group dcg1 succeeds with changed=false and the current
record, issuing no mutating call. -/
theorem c6_degraded_cluster_gating_witness :
    DCGMod.dcgRun dEnv0 dState0
        ⟨"dcg1", none, none, none, "present", none, none, none⟩ =
      (dState0, .ok false (some dcg0), []) :=
  c6_degraded_cluster_gating.2.2 dEnv0 dState0
    ⟨"dcg1", none, none, none, "present", none, none, none⟩ "cluster-1" dcg0
    (by decide) (by decide) rfl (by decide) rfl rfl rfl rfl rfl

end Vplex

namespace Vplex

/-- Zipping a list with itself extended by a tail yields no mismatched
pair. -/
theorem zipSelfAppendAny (l rest : List String) :
    ((l.zip (l ++ rest)).any fun pr => pr.1 ≠ pr.2) = false := by
  induction l with
  | nil => rfl
  | cons a t ih => simpa using ih

/-- The head of the capacity trace is the starting capacity. -/
theorem capTrace_head (env : VVolMod.ExpEnv) (c : Int) (ds : List String) :
    (capTrace env c ds).head? = some c := by
  cases ds <;> rfl

/-- When every expand call strictly grows the capacity, the capacity trace
is strictly increasing. -/
theorem capTrace_chain (env : VVolMod.ExpEnv)
    (hstep : ∀ d c, c < env.expandCap d c) :
    ∀ (ds : List String) (c : Int), List.Chain' (· < ·) (capTrace env c ds) := by
  intro ds
  induction ds with
  | nil => intro c; simp [capTrace]
  | cons d t ih =>
    intro c
    rw [capTrace, List.chain'_cons']
    refine ⟨?_, ih (env.expandCap d c)⟩
    intro h hh
    rw [capTrace_head] at hh
    cases hh
    exact hstep d c

/-- When every expand call strictly grows the capacity, a non-empty call
sequence strictly grows the capacity overall. -/
theorem capAfter_gt (env : VVolMod.ExpEnv)
    (hstep : ∀ d c, c < env.expandCap d c) :
    ∀ (ds : List String) (c : Int), ds ≠ [] → c < VVolMod.capAfter env c ds := by
  have hle : ∀ (ds : List String) (c : Int), c ≤ VVolMod.capAfter env c ds := by
    intro ds
    induction ds with
    | nil => intro c; exact le_refl c
    | cons d t ih =>
      intro c
      exact le_trans (le_of_lt (hstep d c)) (ih (env.expandCap d c))
  intro ds c hne
  cases ds with
  | nil => exact absurd rfl hne
  | cons d t => exact lt_of_lt_of_le (hstep d c) (hle t (env.expandCap d c))

/-- C3: the supplied additional_devices list is validated as an exact
ordered prefix match against the existing child list - a mismatch within
the shared prefix, or a supplied list shorter than the child list, fails
with no expand call issued; equal lists exit as a no-op; otherwise exactly
the suffix beyond the existing prefix is applied, one expand call per
device in order, and when every expand call strictly grows the capacity
the capacity trace is strictly increasing, the final capacity exceeds the
initial one, and the run reports the change.  The concrete examples: with
children D1,D2, requesting D1,D2,D3 expands only with D3, and requesting
D2,D1 fails with no expand call. -/
theorem c3_ordered_prefix_expansion :
    (∀ (env : VVolMod.ExpEnv) (version : String) (children : List String)
      (volType : Option String) (devs : List String) (cap ecap : Int) (ch : Bool),
      strContains version "6.2" = true → devs ≠ [] →
      volType ≠ some "mirrored" → children.length ≤ devs.length →
      ((children.zip devs).any fun pr => pr.1 ≠ pr.2) = true →
      ∃ m, VVolMod.expandRun env version children volType devs (some true)
        cap ecap ch = (.fail m, [])) ∧
    (∀ (env : VVolMod.ExpEnv) (version : String) (children : List String)
      (volType : Option String) (devs : List String) (cap ecap : Int) (ch : Bool),
      strContains version "6.2" = true → devs ≠ [] →
      volType ≠ some "mirrored" → devs.length < children.length →
      ∃ m, VVolMod.expandRun env version children volType devs (some true)
        cap ecap ch = (.fail m, [])) ∧
    (∀ (env : VVolMod.ExpEnv) (version : String) (children : List String)
      (volType : Option String) (cap ecap : Int) (ch : Bool),
      strContains version "6.2" = true → children ≠ [] →
      volType ≠ some "mirrored" →
      VVolMod.expandRun env version children volType children (some true)
        cap ecap ch = (.ok ch (some cap), [])) ∧
    (∀ (env : VVolMod.ExpEnv) (version : String) (children : List String)
      (volType : Option String) (devs : List String) (cap ecap : Int) (ch : Bool),
      strContains version "6.2" = true → volType ≠ some "mirrored" →
      children.length < devs.length →
      devs.take children.length = children →
      (devs.drop children.length).findSome? env.devCheck = none →
      VVolMod.expandRun env version children volType devs (some true)
        cap ecap ch =
        (.ok (ch || decide (cap < VVolMod.capAfter env cap (devs.drop children.length)))
          (some (VVolMod.capAfter env cap (devs.drop children.length))),
          (devs.drop children.length).map VVolMod.ExpCall.expandDevice)) ∧
    (∀ (env : VVolMod.ExpEnv), (∀ d c, c < env.expandCap d c) →
      ∀ (cap : Int) (ds : List String),
      List.Chain' (· < ·) (capTrace env cap ds) ∧
      (ds ≠ [] → cap < VVolMod.capAfter env cap ds ∧
        (false || decide (cap < VVolMod.capAfter env cap ds)) = true)) ∧
    (∀ (env : VVolMod.ExpEnv) (cap ecap : Int), env.devCheck "D3" = none →
      VVolMod.expandRun env "VPLEX setup in use 6.2.0" ["D1", "D2"] none
        ["D1", "D2", "D3"] (some true) cap ecap false =
        (.ok (decide (cap < env.expandCap "D3" cap))
          (some (env.expandCap "D3" cap)), [.expandDevice "D3"]) ∧
      ∃ m, VVolMod.expandRun env "VPLEX setup in use 6.2.0" ["D1", "D2"] none
        ["D2", "D1"] (some true) cap ecap false = (.fail m, [])) := by
  have hgate : ∀ version : String, strContains version "6.2" = true →
      ∀ P : Prop, ¬ (vplexVersionOf version > 6 ∧ P) := by
    intro version hv P ⟨h6, _⟩
    rw [vplexVersionOf, if_pos hv] at h6
    omega
  refine ⟨?_, ?_, ?_, ?_, ?_, ?_⟩
  · intro env version children volType devs cap ecap ch hv hne hmir hlen hmis
    unfold VVolMod.expandRun
    rw [if_neg (hgate version hv _), if_neg (by simp [hne]),
      if_pos ⟨hne, rfl⟩, if_neg hmir, if_pos hlen, if_pos hmis]
    exact ⟨_, rfl⟩
  · intro env version children volType devs cap ecap ch hv hne hmir hlen
    unfold VVolMod.expandRun
    rw [if_neg (hgate version hv _), if_neg (by simp [hne]),
      if_pos ⟨hne, rfl⟩, if_neg hmir, if_neg (by omega)]
    exact ⟨_, rfl⟩
  · intro env version children volType cap ecap ch hv hne hmir
    unfold VVolMod.expandRun
    have hzip : ((children.zip children).any fun pr => pr.1 ≠ pr.2) = false := by
      have := zipSelfAppendAny children []
      simpa using this
    rw [if_neg (hgate version hv _), if_neg (by simp [hne]),
      if_pos ⟨hne, rfl⟩, if_neg hmir, if_pos (le_refl _),
      if_neg (by rw [hzip]; exact Bool.false_ne_true), if_pos rfl]
  · intro env version children volType devs cap ecap ch hv hmir hlen htake hchk
    have hne : devs ≠ [] := by
      intro h
      rw [h] at hlen
      simp at hlen
    have heq : children ++ devs.drop children.length = devs := by
      conv_rhs => rw [← List.take_append_drop children.length devs]
      rw [htake]
    have hzip : ((children.zip devs).any fun pr => pr.1 ≠ pr.2) = false := by
      have := zipSelfAppendAny children (devs.drop children.length)
      rwa [heq] at this
    unfold VVolMod.expandRun
    rw [if_neg (hgate version hv _), if_neg (by simp [hne]),
      if_pos ⟨hne, rfl⟩, if_neg hmir, if_pos (le_of_lt hlen),
      if_neg (by rw [hzip]; exact Bool.false_ne_true), if_neg (by omega)]
    simp only [hchk]
  · intro env hstep cap ds
    refine ⟨capTrace_chain env hstep ds cap, ?_⟩
    intro hne
    have := capAfter_gt env hstep ds cap hne
    simp [this]
  · intro env cap ecap hd3
    constructor
    · unfold VVolMod.expandRun
      rw [if_neg (by decide), if_neg (by simp), if_pos ⟨by simp, rfl⟩,
        if_neg (by simp), if_pos (by simp), if_neg (by simp), if_neg (by simp)]
      simp [List.findSome?, hd3, VVolMod.capAfter]
    · unfold VVolMod.expandRun
      rw [if_neg (by decide), if_neg (by simp), if_pos ⟨by simp, rfl⟩,
        if_neg (by simp), if_pos (by simp), if_pos (by simp)]
      exact ⟨_, rfl⟩

/-- Witness for C3: concrete evaluations with the step environment, where
every expand call grows the capacity by one. -/
theorem c3_ordered_prefix_expansion_witness :
    VVolMod.expandRun expEnvStep "VPLEX setup in use 6.2.0" ["D1", "D2"] none
      ["D1", "D2", "D3"] (some true) 100 0 false =
      (.ok (decide ((100 : Int) < expEnvStep.expandCap "D3" 100))
        (some (expEnvStep.expandCap "D3" 100)), [.expandDevice "D3"]) ∧
    (∃ m, VVolMod.expandRun expEnvStep "VPLEX setup in use 6.2.0" ["D1", "D2"]
      none ["D2", "D1"] (some true) 100 0 false = (.fail m, [])) ∧
    List.Chain' (· < ·) (capTrace expEnvStep 100 ["D3", "D4"]) :=
  ⟨(c3_ordered_prefix_expansion.2.2.2.2.2 expEnvStep 100 0 rfl).1,
   (c3_ordered_prefix_expansion.2.2.2.2.2 expEnvStep 100 0 rfl).2,
   (c3_ordered_prefix_expansion.2.2.2.2.1 expEnvStep (by intro d c; simp [expEnvStep])
     100 ["D3", "D4"]).1⟩

end Vplex

namespace Vplex

/-- Cancellation of string concatenation on the left. -/
theorem strAppendCancel {a v w : String} (h : a ++ v = a ++ w) : v = w := by
  have hd := congrArg String.data h
  simp only [String.data_append] at hd
  exact String.ext (List.append_cancel_left hd)

/-- The virtual-volume URI determines the volume name. -/
theorem get_v_vol_uri_inj {cl v w : String}
    (h : CGMod.get_v_vol_uri cl v = CGMod.get_v_vol_uri cl w) : v = w := by
  unfold CGMod.get_v_vol_uri at h
  exact strAppendCancel h

/-- The port URI determines the port name. -/
theorem portURI_inj {cl v w : String}
    (h : SView.portURI cl v = SView.portURI cl w) : v = w := by
  unfold SView.portURI at h
  exact strAppendCancel h

end Vplex

namespace Vplex.CGMod

/-- A successful volume loop certifies, for every requested volume, that
the fetch succeeded, the owner is the addressed group or nobody, and the
visibility is local. -/
theorem cgVolumeLoop_ok_mem {s : RState} {cl cg st : String} {vs : List String}
    {ops : List PatchOp} (h : cgVolumeLoop s cl cg st vs = .ok ops) :
    ∀ v ∈ vs, ∃ vis owner, is_vir_vol_inuse s v = some (vis, owner) ∧
      (owner = some cg ∨ owner = none) ∧ vis = "local" := by
  induction vs generalizing ops with
  | nil => intro v hv; cases hv
  | cons v₀ rest ih =>
    intro v hv
    rw [cgVolumeLoop] at h
    cases hlk : is_vir_vol_inuse s v₀ with
    | none => rw [hlk] at h; cases h
    | some pr =>
      obtain ⟨vis₀, owner₀⟩ := pr
      rw [hlk] at h
      dsimp only at h
      split_ifs at h with h₁ h₂
      cases hr : cgVolumeLoop s cl cg st rest with
      | error m => rw [hr] at h; simp only [Except.map] at h; cases h
      | ok ops2 =>
        rcases List.mem_cons.mp hv with rfl | hv2
        · exact ⟨vis₀, owner₀, hlk, h₁, not_ne_iff.mp h₂⟩
        · exact ih hr v hv2

/-- An operation is in the output of a successful volume loop exactly when
some requested volume contributed it. -/
theorem cgVolumeLoop_ok_mem_iff {s : RState} {cl cg st : String}
    {vs : List String} {ops : List PatchOp}
    (h : cgVolumeLoop s cl cg st vs = .ok ops) (op : PatchOp) :
    op ∈ ops ↔ ∃ v ∈ vs, ∃ vis owner,
      is_vir_vol_inuse s v = some (vis, owner) ∧
      op ∈ volOpsFor cl cg st owner v := by
  induction vs generalizing ops with
  | nil =>
    rw [cgVolumeLoop] at h
    cases h
    simp
  | cons v₀ rest ih =>
    rw [cgVolumeLoop] at h
    cases hlk : is_vir_vol_inuse s v₀ with
    | none => rw [hlk] at h; cases h
    | some pr =>
      obtain ⟨vis₀, owner₀⟩ := pr
      rw [hlk] at h
      dsimp only at h
      split_ifs at h with h₁ h₂
      cases hr : cgVolumeLoop s cl cg st rest with
      | error m => rw [hr] at h; simp only [Except.map] at h; cases h
      | ok ops2 =>
        rw [hr] at h
        simp only [Except.map] at h
        cases h
        constructor
        · intro hop
          rcases List.mem_append.mp hop with hop | hop
          · exact ⟨v₀, List.mem_cons_self _ _, vis₀, owner₀, hlk, hop⟩
          · obtain ⟨v, hvmem, vis, owner, hlk2, hop2⟩ := (ih hr).mp hop
            exact ⟨v, List.mem_cons_of_mem _ hvmem, vis, owner, hlk2, hop2⟩
        · rintro ⟨v, hvmem, vis, owner, hlk2, hop2⟩
          rcases List.mem_cons.mp hvmem with rfl | hvmem
          · rw [hlk] at hlk2
            injection hlk2 with hpair
            rw [Prod.mk.injEq] at hpair
            obtain ⟨hv1, hv2⟩ := hpair
            rw [← hv2] at hop2
            exact List.mem_append_left _ hop2
          · exact List.mem_append_right _
              ((ih hr).mpr ⟨v, hvmem, vis, owner, hlk2, hop2⟩)

/-- A requested volume held by a consistency group other than the
addressed one makes the volume loop fail, for either requested
direction. -/
theorem cgVolumeLoop_wrong_owner {s : RState} {cl cg st : String}
    {vs : List String} {v vis own : String}
    (hv : v ∈ vs) (hlk : is_vir_vol_inuse s v = some (vis, some own))
    (hne : own ≠ cg) :
    ∃ m, cgVolumeLoop s cl cg st vs = .error m := by
  induction vs with
  | nil => cases hv
  | cons v₀ rest ih =>
    rcases List.mem_cons.mp hv with rfl | hv2
    · rw [cgVolumeLoop, hlk]
      dsimp only
      rw [if_pos (by simp [hne])]
      exact ⟨_, rfl⟩
    · rw [cgVolumeLoop]
      cases hlk0 : is_vir_vol_inuse s v₀ with
      | none => exact ⟨_, rfl⟩
      | some pr =>
        obtain ⟨vis₀, owner₀⟩ := pr
        dsimp only
        by_cases h₁ : ¬ (owner₀ = some cg ∨ owner₀ = none)
        · rw [if_pos h₁]; exact ⟨_, rfl⟩
        · rw [if_neg h₁]
          by_cases h₂ : vis₀ ≠ "local"
          · rw [if_pos h₂]; exact ⟨_, rfl⟩
          · rw [if_neg h₂]
            obtain ⟨m, hm⟩ := ih hv2
            rw [hm]
            exact ⟨m, rfl⟩

end Vplex.CGMod

namespace Vplex

/-- C1 (amended): set-membership reconciliation.  In the storage-view port
section an add op for a port is emitted exactly when the port URI is
absent from the view and the direction is present-in-view (and only add
ops are emitted then); a remove op exactly when the URI is present and the
direction is absent-in-view (and only remove ops then); a view holding
ports P1,P2 with request ports=[P1,P3] present-in-view yields exactly the
add of P3 and no removal of P2.  In the consistency-group volume loop, a
successful plan certifies every requested member is held by the addressed
group or by nobody; a member held by a different group fails the whole
invocation for either requested direction (also for absent-in-cg - the
claimed no-op exception does not hold there); an add op is contributed
exactly for an unowned member under present-in-cg, and a remove op exactly
for an owned member under absent-in-cg. -/
theorem c1_set_membership_reconciliation_amended :
    (∀ (cl : String) (cur ps : List String) (p : String), p ∈ ps →
      ((SView.payload "add" "/ports" (SView.portURI cl p)) ∈
        SView.update_storageview_ports cl cur (some ps) (some "present-in-view") ↔
        ¬ (SView.portURI cl p ∈ cur))) ∧
    (∀ (cl : String) (cur ps : List String) (op : PatchOp),
      op ∈ SView.update_storageview_ports cl cur (some ps) (some "present-in-view") →
      op.op = "add" ∧ op.path = "/ports") ∧
    (∀ (cl : String) (cur ps : List String) (p : String), p ∈ ps →
      ((SView.payload "remove" "/ports" (SView.portURI cl p)) ∈
        SView.update_storageview_ports cl cur (some ps) (some "absent-in-view") ↔
        SView.portURI cl p ∈ cur)) ∧
    (∀ (cl : String) (cur ps : List String) (op : PatchOp),
      op ∈ SView.update_storageview_ports cl cur (some ps) (some "absent-in-view") →
      op.op = "remove" ∧ op.path = "/ports") ∧
    (SView.update_storageview_ports "c1"
      [SView.portURI "c1" "P1", SView.portURI "c1" "P2"]
      (some ["P1", "P3"]) (some "present-in-view") =
      [SView.payload "add" "/ports" (SView.portURI "c1" "P3")]) ∧
    (∀ (s : CGMod.RState) (cl cg st : String) (vs : List String)
      (ops : List PatchOp),
      CGMod.cgVolumeLoop s cl cg st vs = .ok ops →
      ∀ v ∈ vs, ∃ vis owner, CGMod.is_vir_vol_inuse s v = some (vis, owner) ∧
        (owner = some cg ∨ owner = none) ∧ vis = "local") ∧
    (∀ (s : CGMod.RState) (cl cg st : String) (vs : List String)
      (v vis own : String), v ∈ vs →
      CGMod.is_vir_vol_inuse s v = some (vis, some own) → own ≠ cg →
      ∃ m, CGMod.cgVolumeLoop s cl cg st vs = .error m) ∧
    (∀ (s : CGMod.RState) (cl cg : String) (vs : List String)
      (ops : List PatchOp) (v vis : String) (owner : Option String),
      CGMod.cgVolumeLoop s cl cg "present-in-cg" vs = .ok ops →
      v ∈ vs → CGMod.is_vir_vol_inuse s v = some (vis, owner) →
      ((⟨"add", "/virtual_volumes", CGMod.get_v_vol_uri cl v⟩ : PatchOp) ∈ ops ↔
        owner = none)) ∧
    (∀ (s : CGMod.RState) (cl cg : String) (vs : List String)
      (ops : List PatchOp) (v vis : String) (owner : Option String),
      CGMod.cgVolumeLoop s cl cg "absent-in-cg" vs = .ok ops →
      v ∈ vs → CGMod.is_vir_vol_inuse s v = some (vis, owner) →
      ((⟨"remove", "/virtual_volumes", CGMod.get_v_vol_uri cl v⟩ : PatchOp) ∈ ops ↔
        owner = some cg)) := by
  refine ⟨?_, ?_, ?_, ?_, by decide, ?_, ?_, ?_, ?_⟩
  · intro cl cur ps p hp
    have hne : ps ≠ [] := by rintro rfl; cases hp
    unfold SView.update_storageview_ports
    dsimp only
    rw [if_neg hne, if_pos rfl]
    constructor
    · intro hmem
      obtain ⟨u, hu, hf⟩ := List.mem_filterMap.mp hmem
      by_cases hc : cur.contains u
      · rw [if_pos hc] at hf; cases hf
      · rw [if_neg hc] at hf
        injection hf with hf
        have hval : u = SView.portURI cl p := congrArg PatchOp.value hf
        rw [hval] at hc
        simpa using hc
    · intro hnc
      apply List.mem_filterMap.mpr
      refine ⟨SView.portURI cl p, List.mem_map_of_mem _ hp, ?_⟩
      rw [if_neg (by simpa using hnc)]
  · intro cl cur ps op hop
    unfold SView.update_storageview_ports at hop
    dsimp only at hop
    by_cases hne : ps = []
    · rw [if_pos hne] at hop; cases hop
    · rw [if_neg hne, if_pos rfl] at hop
      obtain ⟨u, hu, hf⟩ := List.mem_filterMap.mp hop
      by_cases hc : cur.contains u
      · rw [if_pos hc] at hf; cases hf
      · rw [if_neg hc] at hf
        injection hf with hf
        rw [← hf]
        exact ⟨rfl, rfl⟩
  · intro cl cur ps p hp
    have hne : ps ≠ [] := by rintro rfl; cases hp
    unfold SView.update_storageview_ports
    dsimp only
    rw [if_neg hne, if_neg (by decide), if_pos rfl]
    constructor
    · intro hmem
      obtain ⟨u, hu, hf⟩ := List.mem_filterMap.mp hmem
      by_cases hc : cur.contains u
      · rw [if_pos hc] at hf
        injection hf with hf
        have hval : u = SView.portURI cl p := congrArg PatchOp.value hf
        rw [hval] at hc
        simpa using hc
      · rw [if_neg hc] at hf; cases hf
    · intro hcmem
      apply List.mem_filterMap.mpr
      refine ⟨SView.portURI cl p, List.mem_map_of_mem _ hp, ?_⟩
      rw [if_pos (by simpa using hcmem)]
  · intro cl cur ps op hop
    unfold SView.update_storageview_ports at hop
    dsimp only at hop
    by_cases hne : ps = []
    · rw [if_pos hne] at hop; cases hop
    · rw [if_neg hne, if_neg (by decide), if_pos rfl] at hop
      obtain ⟨u, hu, hf⟩ := List.mem_filterMap.mp hop
      by_cases hc : cur.contains u
      · rw [if_pos hc] at hf
        injection hf with hf
        rw [← hf]
        exact ⟨rfl, rfl⟩
      · rw [if_neg hc] at hf; cases hf
  · intro s cl cg st vs ops hloop
    exact CGMod.cgVolumeLoop_ok_mem hloop
  · intro s cl cg st vs v vis own hv hlk hne
    exact CGMod.cgVolumeLoop_wrong_owner hv hlk hne
  · intro s cl cg vs ops v vis owner hloop hv hlk
    rw [CGMod.cgVolumeLoop_ok_mem_iff hloop]
    constructor
    · rintro ⟨w, hw, visw, ownerw, hlkw, hopw⟩
      have hopw2 : (⟨"add", "/virtual_volumes", CGMod.get_v_vol_uri cl v⟩ : PatchOp) ∈
          (if ownerw = none then
            [(⟨"add", "/virtual_volumes", CGMod.get_v_vol_uri cl w⟩ : PatchOp)]
          else []) := by
        simpa [CGMod.volOpsFor] using hopw
      by_cases hw0 : ownerw = none
      · rw [if_pos hw0] at hopw2
        rcases List.mem_singleton.mp hopw2 with hfe
        have huri : CGMod.get_v_vol_uri cl v = CGMod.get_v_vol_uri cl w :=
          congrArg PatchOp.value hfe
        have hwv : v = w := get_v_vol_uri_inj huri
        rw [← hwv] at hlkw
        rw [hlk] at hlkw
        injection hlkw with hpair
        rw [Prod.mk.injEq] at hpair
        rw [hpair.2]
        exact hw0
      · rw [if_neg hw0] at hopw2; cases hopw2
    · intro howner
      refine ⟨v, hv, vis, owner, hlk, ?_⟩
      simp [CGMod.volOpsFor, howner]
  · intro s cl cg vs ops v vis owner hloop hv hlk
    rw [CGMod.cgVolumeLoop_ok_mem_iff hloop]
    constructor
    · rintro ⟨w, hw, visw, ownerw, hlkw, hopw⟩
      have hopw2 : (⟨"remove", "/virtual_volumes", CGMod.get_v_vol_uri cl v⟩ : PatchOp) ∈
          (if ownerw = some cg then
            [(⟨"remove", "/virtual_volumes", CGMod.get_v_vol_uri cl w⟩ : PatchOp)]
          else []) := by
        simpa [CGMod.volOpsFor] using hopw
      by_cases hw0 : ownerw = some cg
      · rw [if_pos hw0] at hopw2
        rcases List.mem_singleton.mp hopw2 with hfe
        have huri : CGMod.get_v_vol_uri cl v = CGMod.get_v_vol_uri cl w :=
          congrArg PatchOp.value hfe
        have hwv : v = w := get_v_vol_uri_inj huri
        rw [← hwv] at hlkw
        rw [hlk] at hlkw
        injection hlkw with hpair
        rw [Prod.mk.injEq] at hpair
        rw [hpair.2]
        exact hw0
      · rw [if_neg hw0] at hopw2; cases hopw2
    · intro howner
      refine ⟨v, hv, vis, owner, hlk, ?_⟩
      simp [CGMod.volOpsFor, howner]

/-- Witness for C1: the concrete port example, and concrete volume-loop
evaluations on the state cgS1. -/
theorem c1_set_membership_reconciliation_amended_witness :
    ((SView.payload "add" "/ports" (SView.portURI "c1" "P3")) ∈
      SView.update_storageview_ports "c1"
        [SView.portURI "c1" "P1", SView.portURI "c1" "P2"]
        (some ["P1", "P3"]) (some "present-in-view") ↔
      ¬ (SView.portURI "c1" "P3" ∈
        [SView.portURI "c1" "P1", SView.portURI "c1" "P2"])) ∧
    (∃ m, CGMod.cgVolumeLoop cgS1 "cluster-1" "cg1" "absent-in-cg" ["v1"] =
      .error m) :=
  ⟨c1_set_membership_reconciliation_amended.1 "c1"
      [SView.portURI "c1" "P1", SView.portURI "c1" "P2"] ["P1", "P3"] "P3"
      (by decide),
   c1_set_membership_reconciliation_amended.2.2.2.2.2.2.1 cgS1 "cluster-1"
      "cg1" "absent-in-cg" ["v1"] "v1" "local" "cg2" (by decide) (by decide)
      (by decide)⟩

/-- Counterexample for C1 as stated: requesting absent-in-cg for volume v1
held by the group cg2 while addressing cg1 fails the whole invocation
(with no remote call), where the claim says a member held by a different
owner with requested direction absent is a no-op. -/
theorem c1_counterexample_absent_wrong_owner_fails :
    CGMod.cgRun cgS1 cgP1 =
      (cgS1, .fail ("Virtual volume v1 is used by another Consistency group" ++
        " in cluster-1"), []) := by
  decide

end Vplex


namespace Vplex

/-- C8: renaming a consistency group checks the candidate name against
both the same-cluster consistency groups and the distributed consistency
groups before any patch is sent - a collision in either namespace fails
the run with no mutating call; when both checks pass the single patch call
carrying the replace op on /name goes out; and mirroring the create-time
check, a group cannot be created under a name held by a distributed
consistency group. -/
theorem c8_rename_collision_check :
    (∀ (s : CGMod.RState) (p : CGMod.Params) (g : CGMod.Grp) (new : String),
      (validate_name p.cg_name 63 "cg_name").1 = true → p.state = "present" →
      CGMod.get_cgrp s p.cg_name = some g → p.virtual_volumes = none →
      p.new_cg_name = some new → new ≠ "" →
      (validate_name new 63 "new_cg_name").1 = true → new ≠ g.name →
      (CGMod.get_cgrp s new).isSome = true →
      ∃ m, CGMod.cgRun s p = (s, .fail m, [])) ∧
    (∀ (s : CGMod.RState) (p : CGMod.Params) (g : CGMod.Grp) (new : String),
      (validate_name p.cg_name 63 "cg_name").1 = true → p.state = "present" →
      CGMod.get_cgrp s p.cg_name = some g → p.virtual_volumes = none →
      p.new_cg_name = some new → new ≠ "" →
      (validate_name new 63 "new_cg_name").1 = true → new ≠ g.name →
      CGMod.get_cgrp s new = none →
      (CGMod.check_name_in_distributed_cg s new).isSome = true →
      ∃ m, CGMod.cgRun s p = (s, .fail m, [])) ∧
    (∀ (s : CGMod.RState) (p : CGMod.Params) (g : CGMod.Grp) (new : String),
      (validate_name p.cg_name 63 "cg_name").1 = true → p.state = "present" →
      CGMod.get_cgrp s p.cg_name = some g → p.virtual_volumes = none →
      p.new_cg_name = some new → new ≠ "" →
      (validate_name new 63 "new_cg_name").1 = true → new ≠ g.name →
      CGMod.get_cgrp s new = none →
      (CGMod.check_name_in_distributed_cg s new).isSome = false →
      CGMod.cgRun s p =
        ((CGMod.update_cgrp s p.cluster_name p.cg_name
            [⟨"replace", "/name", new⟩]).1,
          .ok true (CGMod.update_cgrp s p.cluster_name p.cg_name
            [⟨"replace", "/name", new⟩]).2,
          [.patch p.cluster_name p.cg_name [⟨"replace", "/name", new⟩]])) ∧
    (∀ (s : CGMod.RState) (p : CGMod.Params),
      (validate_name p.cg_name 63 "cg_name").1 = true → p.state = "present" →
      CGMod.get_cgrp s p.cg_name = none →
      (CGMod.check_name_in_distributed_cg s p.cg_name).isSome = true →
      ∃ m, CGMod.cgRun s p = (s, .fail m, [])) := by
  have hrun : ∀ (s : CGMod.RState) (p : CGMod.Params) (g : CGMod.Grp),
      (validate_name p.cg_name 63 "cg_name").1 = true → p.state = "present" →
      CGMod.get_cgrp s p.cg_name = some g →
      CGMod.cgRun s p = CGMod.cgAfterCreate s p g false [] := by
    intro s p g hname hstate hget
    unfold CGMod.cgRun
    rw [hname]
    simp only [Bool.true_eq_false, if_false]
    rw [hget]
    dsimp only
    rw [if_neg (by rw [hstate]; decide), if_pos hstate]
  have hafter : ∀ (s : CGMod.RState) (p : CGMod.Params) (g : CGMod.Grp)
      (new : String), p.virtual_volumes = none → p.new_cg_name = some new →
      new ≠ "" →
      CGMod.cgAfterCreate s p g false [] =
        (match CGMod.cgRenameStage s g new with
        | .error m => (s, .fail m, [])
        | .ok renOps =>
          if renOps = [] then (s, .ok false (some g), [])
          else ((CGMod.update_cgrp s p.cluster_name p.cg_name renOps).1,
            .ok true (CGMod.update_cgrp s p.cluster_name p.cg_name renOps).2,
            [.patch p.cluster_name p.cg_name renOps])) := by
    intro s p g new hvols hnewv hne0
    unfold CGMod.cgAfterCreate
    rw [hvols, hnewv]
    rw [if_neg (by simp [truthyList])]
    dsimp only
    rw [if_pos (by simp [truthyStr, hne0])]
    rw [Option.getD_some]
    cases hr : CGMod.cgRenameStage s g new with
    | error m => rfl
    | ok renOps => simp only [List.nil_append]
  refine ⟨?_, ?_, ?_, ?_⟩
  · intro s p g new hname hstate hget hvols hnewv hne0 hnval hneq hex
    rw [hrun s p g hname hstate hget, hafter s p g new hvols hnewv hne0]
    unfold CGMod.cgRenameStage
    rw [hnval]
    rw [if_neg (by decide), if_neg hneq, if_pos hex]
    exact ⟨_, rfl⟩
  · intro s p g new hname hstate hget hvols hnewv hne0 hnval hneq hnex hdcg
    rw [hrun s p g hname hstate hget, hafter s p g new hvols hnewv hne0]
    unfold CGMod.cgRenameStage
    rw [hnval]
    rw [if_neg (by decide), if_neg hneq, if_neg (by rw [hnex]; decide),
      if_pos hdcg]
    exact ⟨_, rfl⟩
  · intro s p g new hname hstate hget hvols hnewv hne0 hnval hneq hnex hdcg
    rw [hrun s p g hname hstate hget, hafter s p g new hvols hnewv hne0]
    unfold CGMod.cgRenameStage
    rw [hnval]
    rw [if_neg (by decide), if_neg hneq, if_neg (by rw [hnex]; decide),
      if_neg (by rw [hdcg]; decide)]
    dsimp only
    rw [if_neg (by simp)]
  · intro s p hname hstate hget hdcg
    unfold CGMod.cgRun
    rw [hname]
    simp only [Bool.true_eq_false, if_false]
    rw [hget]
    dsimp only
    rw [if_neg (by rw [hstate]; decide), if_pos hstate, if_pos hdcg]
    exact ⟨_, rfl⟩

/-- Witness for C8: in a concrete state, renaming cg1 to dcg1 fails
because a distributed consistency group carries that name, and creating a
group named dcg1 fails for the same reason. -/
theorem c8_rename_collision_check_witness :
    (∃ m, CGMod.cgRun ⟨[⟨"cg1", []⟩], [], ["dcg1"]⟩
      ⟨"cluster-1", "cg1", none, none, some "dcg1", "present"⟩ =
      (⟨[⟨"cg1", []⟩], [], ["dcg1"]⟩, .fail m, [])) ∧
    (∃ m, CGMod.cgRun ⟨[], [], ["dcg1"]⟩
      ⟨"cluster-1", "dcg1", none, none, none, "present"⟩ =
      (⟨[], [], ["dcg1"]⟩, .fail m, [])) :=
  ⟨c8_rename_collision_check.2.1 ⟨[⟨"cg1", []⟩], [], ["dcg1"]⟩
      ⟨"cluster-1", "cg1", none, none, some "dcg1", "present"⟩ ⟨"cg1", []⟩
      "dcg1" (by decide) rfl (by decide) rfl rfl (by decide) (by decide)
      (by decide) (by decide) (by decide),
   c8_rename_collision_check.2.2.2 ⟨[], [], ["dcg1"]⟩
      ⟨"cluster-1", "dcg1", none, none, none, "present"⟩ (by decide) rfl
      (by decide) (by decide)⟩

end Vplex

namespace Vplex.CGMod

/-- Whenever the tail of the consistency-group run after the create stage
exits successfully, the changed flag holds exactly when a mutating call
was issued, provided that invariant held on entry. -/
theorem cgAfterCreate_changed_iff {s : RState} {p : Params} {g : Grp}
    {ch : Bool} {calls₀ : List Call} {s₁ : RState} {c : Bool} {d : Option Grp}
    {calls : List Call} (hinv : ch = true ↔ calls₀ ≠ [])
    (h : cgAfterCreate s p g ch calls₀ = (s₁, .ok c d, calls)) :
    c = true ↔ calls ≠ [] := by
  unfold cgAfterCreate at h
  cases hv : (if truthyList p.virtual_volumes ∧ truthyStr p.virtual_volume_state then
      cgVolumeLoop s p.cluster_name p.cg_name (p.virtual_volume_state.getD "")
        ((p.virtual_volumes).getD []) else .ok []) with
  | error m =>
    rw [hv] at h
    have hb := congrArg (fun t => t.2.1) h
    cases hb
  | ok volOps =>
    rw [hv] at h
    dsimp only at h
    cases hrn : (if truthyStr p.new_cg_name then
        cgRenameStage s g (p.new_cg_name.getD "") else .ok []) with
    | error m =>
      rw [hrn] at h
      have hb := congrArg (fun t => t.2.1) h
      cases hb
    | ok renOps =>
      rw [hrn] at h
      dsimp only at h
      by_cases hpl : volOps ++ renOps = []
      · rw [if_pos hpl] at h
        have hb := congrArg (fun t => t.2.1) h
        injection hb with hb1 hb2
        have hcalls : calls₀ = calls := congrArg (fun t => t.2.2) h
        rw [← hb1, ← hcalls]
        exact hinv
      · rw [if_neg hpl] at h
        have hb := congrArg (fun t => t.2.1) h
        injection hb with hb1 hb2
        have hcalls : calls₀ ++ [Call.patch p.cluster_name p.cg_name
            (volOps ++ renOps)] = calls := congrArg (fun t => t.2.2) h
        rw [← hb1, ← hcalls]
        simp

end Vplex.CGMod

namespace Vplex.MigMod

/-- The modelled appliance patch application preserves the job name. -/
theorem applyMigOp_name (j : MigJob) (op : MigPatchOp) :
    (applyMigOp j op).name = j.name := by
  unfold applyMigOp
  split_ifs <;> first | rfl | (cases op.value <;> rfl)

/-- Folding patch applications preserves the job name. -/
theorem foldl_applyMigOp_name (pl : List MigPatchOp) (j : MigJob) :
    (pl.foldl applyMigOp j).name = j.name := by
  induction pl generalizing j with
  | nil => rfl
  | cons op t ih => rw [List.foldl_cons, ih, applyMigOp_name]

/-- Fetching the patched job after a patch batch returns the folded
job. -/
theorem applyMigOps_find? (jobs : List MigJob) (n : String)
    (pl : List MigPatchOp) :
    (applyMigOps jobs n pl).find? (fun j => j.name = n) =
      (jobs.find? (fun j => j.name = n)).map (fun j => pl.foldl applyMigOp j) := by
  induction jobs with
  | nil => rfl
  | cons j t ih =>
    unfold applyMigOps
    unfold applyMigOps at ih
    simp only [List.map_cons, List.find?_cons]
    by_cases h : j.name = n
    · rw [if_pos h]
      have h1 : (decide ((pl.foldl applyMigOp j).name = n)) = true := by
        rw [foldl_applyMigOp_name]
        simpa using h
      have h2 : (decide (j.name = n)) = true := by simpa using h
      rw [h1, h2]
      rfl
    · rw [if_neg h]
      have h2 : (decide (j.name = n)) = false := by simpa using h
      rw [h2]
      exact ih

/-- A list extended by a job of the sought name always finds a job. -/
theorem find?_append_singleton (jobs : List MigJob) (j : MigJob) (n : String)
    (hj : j.name = n) :
    ((jobs ++ [j]).find? (fun a => a.name = n)).isSome = true := by
  induction jobs with
  | nil => simp [List.find?, hj]
  | cons a t ih =>
    simp only [List.cons_append, List.find?_cons]
    by_cases h : a.name = n
    · simp [h]
    · simpa [h] using ih

end Vplex.MigMod

namespace Vplex.MigMod

theorem migMain_changed_iff {jobs : List MigJob} {p : MigParams}
    {job : Option MigJob} {cf ch : Bool} {calls₀ : List MigCall}
    {jobs₁ : List MigJob} {c : Bool} {d : Option MigJob} {calls : List MigCall}
    (hinv : ch = true ↔ calls₀ ≠ [])
    (hnone : job = none → calls₀ = [])
    (hjobs : job.isSome = true →
      (jobs.find? (fun j => j.name = p.migration_name)).isSome = true)
    (h : migMain jobs p job cf ch calls₀ = (jobs₁, .ok c d, calls)) :
    c = true ↔ calls ≠ [] := by
  unfold migMain at h
  split at h
  · exact absurd (congrArg (fun t => t.2.1) h) (by simp)
  · rename_i stOps hst
    split at h
    · exact absurd (congrArg (fun t => t.2.1) h) (by simp)
    · rename_i tsOps hts
      dsimp only at h
      by_cases hpl : stOps ++ tsOps = []
      · rw [if_pos hpl, if_pos hpl, if_pos hpl, if_pos hpl] at h
        by_cases h1 : job = none ∧ p.state = "absent"
        · rw [if_pos h1] at h
          have hc : Outcome.ok false none = Outcome.ok c d :=
            congrArg (fun t => t.2.1) h
          injection hc with hc1 hc2
          have hcalls : calls₀ = calls := congrArg (fun t => t.2.2) h
          rw [← hc1, ← hcalls]
          simp [hnone h1.1]
        · rw [if_neg h1] at h
          by_cases h2 : job.isSome = true ∧ p.state = "absent"
          · rw [if_pos h2] at h
            cases hjob : job with
            | none => rw [hjob] at h2; simp at h2
            | some j =>
              rw [hjob] at h
              dsimp only at h
              by_cases h3 : ¬ (j.status = "cancelled" ∨ j.status = "committed")
              · rw [if_pos h3] at h
                exact absurd (congrArg (fun t => t.2.1) h) (by simp)
              · rw [if_neg h3] at h
                have hc : Outcome.ok true none = Outcome.ok c d :=
                  congrArg (fun t => t.2.1) h
                injection hc with hc1 hc2
                have hcalls : calls₀ ++ [MigCall.delete p.migration_name] = calls :=
                  congrArg (fun t => t.2.2) h
                rw [← hc1, ← hcalls]
                simp
          · rw [if_neg h2] at h
            have hc : Outcome.ok ch job = Outcome.ok c d :=
              congrArg (fun t => t.2.1) h
            injection hc with hc1 hc2
            have hcalls : calls₀ = calls := congrArg (fun t => t.2.2) h
            rw [← hc1, ← hcalls]
            exact hinv
      · rw [if_neg hpl, if_neg hpl, if_neg hpl, if_neg hpl] at h
        have hjsome : job.isSome = true := by
          cases hjob : job with
          | some j => rfl
          | none =>
            rw [hjob] at hst hts
            dsimp only at hst hts
            injection hst with hst1
            injection hts with hts1
            rw [← hst1, ← hts1] at hpl
            exact absurd rfl hpl
        have hfind : ((applyMigOps jobs p.migration_name (stOps ++ tsOps)).find?
            (fun j => j.name = p.migration_name)).isSome = true := by
          rw [applyMigOps_find?]
          simpa using hjobs hjsome
        by_cases h1 : (applyMigOps jobs p.migration_name (stOps ++ tsOps)).find?
            (fun j => j.name = p.migration_name) = none ∧ p.state = "absent"
        · rw [h1.1] at hfind; cases hfind
        · rw [if_neg h1] at h
          by_cases h2 : ((applyMigOps jobs p.migration_name (stOps ++ tsOps)).find?
              (fun j => j.name = p.migration_name)).isSome = true ∧ p.state = "absent"
          · rw [if_pos h2] at h
            cases hjob2 : (applyMigOps jobs p.migration_name (stOps ++ tsOps)).find?
                (fun j => j.name = p.migration_name) with
            | none => rw [hjob2] at hfind; cases hfind
            | some j =>
              rw [hjob2] at h
              dsimp only at h
              by_cases h3 : ¬ (j.status = "cancelled" ∨ j.status = "committed")
              · rw [if_pos h3] at h
                exact absurd (congrArg (fun t => t.2.1) h) (by simp)
              · rw [if_neg h3] at h
                have hc : Outcome.ok true none = Outcome.ok c d :=
                  congrArg (fun t => t.2.1) h
                injection hc with hc1 hc2
                have hcalls : (calls₀ ++ [MigCall.patch p.migration_name
                    (stOps ++ tsOps)]) ++ [MigCall.delete p.migration_name] = calls :=
                  congrArg (fun t => t.2.2) h
                rw [← hc1, ← hcalls]
                simp
          · rw [if_neg h2] at h
            have hc : Outcome.ok true _ = Outcome.ok c d :=
              congrArg (fun t => t.2.1) h
            injection hc with hc1 hc2
            have hcalls : calls₀ ++ [MigCall.patch p.migration_name
                (stOps ++ tsOps)] = calls := congrArg (fun t => t.2.2) h
            rw [← hc1, ← hcalls]
            simp

end Vplex.MigMod


namespace Vplex

/-- C9 (amended): each embedded run yields exactly one terminal result by
construction.  For the consistency-group module and the data-migration
module, the changed flag of a successful result is true exactly when at
least one mutating remote call was issued.  For the virtual-volume expand
section (entered with no earlier change), the changed flag of a
successful result is true exactly when the capacity grew - an expand call
that leaves the capacity unchanged executes a mutating call yet reports
changed=false, which is where the claim as stated fails. -/
theorem c9_result_reporting_amended :
    (∀ (s : CGMod.RState) (p : CGMod.Params) (s₁ : CGMod.RState) (c : Bool)
      (d : Option CGMod.Grp) (calls : List CGMod.Call),
      CGMod.cgRun s p = (s₁, .ok c d, calls) → (c = true ↔ calls ≠ [])) ∧
    (∀ (env : MigMod.MigEnv) (jobs : List MigMod.MigJob) (p : MigMod.MigParams)
      (jobs₁ : List MigMod.MigJob) (c : Bool) (d : Option MigMod.MigJob)
      (calls : List MigMod.MigCall),
      MigMod.migRun env jobs p = (jobs₁, .ok c d, calls) →
      (c = true ↔ calls ≠ [])) ∧
    (∀ (env : VVolMod.ExpEnv) (version : String) (children : List String)
      (volType : Option String) (devs : List String) (expand : Option Bool)
      (cap ecap capF : Int) (c : Bool) (calls : List VVolMod.ExpCall),
      VVolMod.expandRun env version children volType devs expand cap ecap false =
        (.ok c (some capF), calls) → (c = true ↔ cap < capF)) := by
  refine ⟨?_, ?_, ?_⟩
  · intro s p s₁ c d calls h

    unfold CGMod.cgRun at h
    split at h
    · exact absurd (congrArg (fun t => t.2.1) h) (by simp)
    · split at h
      · split at h
        · have hc : Outcome.ok true none = Outcome.ok c d :=
            congrArg (fun t => t.2.1) h
          injection hc with hc1 hc2
          have hcalls : [CGMod.Call.delete p.cluster_name p.cg_name] = calls :=
            congrArg (fun t => t.2.2) h
          rw [← hc1, ← hcalls]
          simp
        · split at h
          · exact CGMod.cgAfterCreate_changed_iff (by simp) h
          · have hc : Outcome.ok false _ = Outcome.ok c d :=
              congrArg (fun t => t.2.1) h
            injection hc with hc1 hc2
            have hcalls : ([] : List CGMod.Call) = calls :=
              congrArg (fun t => t.2.2) h
            rw [← hc1, ← hcalls]
            simp
      · split at h
        · have hc : Outcome.ok false none = Outcome.ok c d :=
            congrArg (fun t => t.2.1) h
          injection hc with hc1 hc2
          have hcalls : ([] : List CGMod.Call) = calls :=
            congrArg (fun t => t.2.2) h
          rw [← hc1, ← hcalls]
          simp
        · split at h
          · split at h
            · exact absurd (congrArg (fun t => t.2.1) h) (by simp)
            · split at h
              · exact absurd (congrArg (fun t => t.2.1) h) (by simp)
              · exact CGMod.cgAfterCreate_changed_iff (by simp) h
          · have hc : Outcome.ok false none = Outcome.ok c d :=
              congrArg (fun t => t.2.1) h
            injection hc with hc1 hc2
            have hcalls : ([] : List CGMod.Call) = calls :=
              congrArg (fun t => t.2.2) h
            rw [← hc1, ← hcalls]
            simp
  · intro env jobs p jobs₁ c d calls h

    unfold MigMod.migRun at h
    split at h
    · exact absurd (congrArg (fun t => t.2.1) h) (by simp)
    · split at h
      · exact absurd (congrArg (fun t => t.2.1) h) (by simp)
      · dsimp only at h
        cases hj0 : jobs.find? (fun j => j.name = p.migration_name) with
        | none =>
          rw [hj0] at h
          dsimp only at h
          split at h
          · -- state present
            split at h
            · -- source and target supplied: create path
              split at h
              · exact absurd (congrArg (fun t => t.2.1) h) (by simp)
              · rename_i j hok
                refine MigMod.migMain_changed_iff (by simp) (by intro hx; cases hx) ?_ h
                intro _
                have hjn : j.name = p.migration_name := by
                  unfold MigMod.create_job at hok
                  cases hchk : env.srcTargetCheck with
                  | some m => rw [hchk] at hok; cases hok
                  | none =>
                    rw [hchk] at hok
                    dsimp only at hok
                    injection hok with hok1
                    rw [← hok1]
                exact MigMod.find?_append_singleton jobs j p.migration_name hjn
            · exact absurd (congrArg (fun t => t.2.1) h) (by simp)
          · exact MigMod.migMain_changed_iff (by simp) (fun _ => rfl) (by simp) h
        | some j =>
          rw [hj0] at h
          dsimp only at h
          split at h
          · split at h
            · exact MigMod.migMain_changed_iff (by simp) (by intro hx; cases hx)
                (fun _ => by rw [hj0]; rfl) h
            · exact absurd (congrArg (fun t => t.2.1) h) (by simp)
          · exact MigMod.migMain_changed_iff (by simp) (by intro hx; cases hx)
              (fun _ => by rw [hj0]; rfl) h
  · intro env version children volType devs expand cap ecap capF c calls h

    unfold VVolMod.expandRun at h
    split at h
    · exact absurd (congrArg (fun t => t.1) h) (by simp)
    · split at h
      · exact absurd (congrArg (fun t => t.1) h) (by simp)
      · split at h
        · split at h
          · exact absurd (congrArg (fun t => t.1) h) (by simp)
          · split at h
            · split at h
              · exact absurd (congrArg (fun t => t.1) h) (by simp)
              · split at h
                · have hc : Outcome.ok false (some cap) = Outcome.ok c (some capF) :=
                    congrArg (fun t => t.1) h
                  injection hc with hc1 hc2
                  injection hc2 with hc2
                  rw [← hc1, ← hc2]
                  simp
                · dsimp only at h
                  split at h
                  · exact absurd (congrArg (fun t => t.1) h) (by simp)
                  · have hc : Outcome.ok _ (some _) = Outcome.ok c (some capF) :=
                      congrArg (fun t => t.1) h
                    injection hc with hc1 hc2
                    injection hc2 with hc2
                    rw [← hc1, ← hc2]
                    simp
            · exact absurd (congrArg (fun t => t.1) h) (by simp)
        · split at h
          · have hc : Outcome.ok _ (some _) = Outcome.ok c (some capF) :=
              congrArg (fun t => t.1) h
            injection hc with hc1 hc2
            injection hc2 with hc2
            rw [← hc1, ← hc2]
            simp
          · have hc : Outcome.ok false (some cap) = Outcome.ok c (some capF) :=
              congrArg (fun t => t.1) h
            injection hc with hc1 hc2
            injection hc2 with hc2
            rw [← hc1, ← hc2]
            simp

/-- Witness for C9: a read-only request on the concrete state cgS1 reports
changed=false with no mutating call. -/
theorem c9_result_reporting_amended_witness :
    (false = true) ↔ (([] : List CGMod.Call) ≠ []) :=
  c9_result_reporting_amended.1 cgS1
    ⟨"cluster-1", "cg1", none, none, none, "present"⟩ cgS1 false
    (some ⟨"cg1", []⟩) [] (by decide)

/-- Counterexample for C9 as stated: in the expand environment where the
appliance reports an unchanged capacity, expanding with D2 issues one
mutating expand call yet the run reports changed=false - changed is not
true whenever a mutating call executed. -/
theorem c9_counterexample_call_without_changed :
    VVolMod.expandRun expEnvConst "VPLEX setup in use 6.2.0" ["D1"] none
      ["D1", "D2"] (some true) 100 0 false =
      (.ok false (some 100), [.expandDevice "D2"]) ∧
    ([VVolMod.ExpCall.expandDevice "D2"] ≠ []) := by
  constructor
  · decide
  · decide

end Vplex

namespace Vplex

/-- Finding by name commutes with a name-preserving map. -/
theorem find?_name_map {α : Type} (nm : α → String) (f : α → α)
    (hf : ∀ a, nm (f a) = nm a) (n : String) (l : List α) :
    (l.map f).find? (fun a => nm a = n) = (l.find? (fun a => nm a = n)).map f := by
  induction l with
  | nil => rfl
  | cons a t ih =>
    simp only [List.map_cons, List.find?_cons]
    by_cases h : nm a = n
    · have h1 : (decide (nm (f a) = n)) = true := by rw [hf]; simpa using h
      have h2 : (decide (nm a = n)) = true := by simpa using h
      rw [h1, h2]
      rfl
    · have h1 : (decide (nm (f a) = n)) = false := by rw [hf]; simpa using h
      have h2 : (decide (nm a = n)) = false := by simpa using h
      rw [h1, h2]
      exact ih

/-- After filtering out a name, that name is no longer found. -/
theorem find?_filter_ne {α : Type} (nm : α → String) (n : String) (l : List α) :
    (l.filter (fun a => nm a ≠ n)).find? (fun a => nm a = n) = none := by
  induction l with
  | nil => rfl
  | cons a t ih =>
    simp only [List.filter_cons]
    by_cases h : nm a = n
    · simp only [ne_eq, h, not_true_eq_false, decide_False, Bool.false_eq_true,
        if_false]
      exact ih
    · simp only [ne_eq, h, not_false_eq_true, decide_True, if_true,
        List.find?_cons, decide_eq_true_eq]
      simp only [decide_not]
      simpa using ih

/-- Finding in a concatenation when the left part has no match. -/
theorem find?_append_none {α : Type} (p : α → Bool) {l : List α}
    (l₂ : List α) (h : l.find? p = none) :
    (l ++ l₂).find? p = l₂.find? p := by
  induction l with
  | nil => rfl
  | cons a t ih =>
    rw [List.find?_cons] at h
    cases hp : p a with
    | true => rw [hp] at h; cases h
    | false =>
      rw [hp] at h
      simp only [List.cons_append, List.find?_cons, hp]
      exact ih h

end Vplex

namespace Vplex.CGMod

/-- Shape of the operations contributed by one volume: they touch
/virtual_volumes, carry the volume URI, and are adds or removes. -/
theorem volOpsFor_shape {cl cg st : String} {owner : Option String}
    {v : String} {op : PatchOp} (h : op ∈ volOpsFor cl cg st owner v) :
    op.path = "/virtual_volumes" ∧ op.value = get_v_vol_uri cl v ∧
      (op.op = "add" ∨ op.op = "remove") := by
  unfold volOpsFor at h
  rcases List.mem_append.mp h with h | h
  · split_ifs at h with h1
    · rcases List.mem_singleton.mp h with rfl
      exact ⟨rfl, rfl, Or.inl rfl⟩
    · cases h
  · split_ifs at h with h1
    · rcases List.mem_singleton.mp h with rfl
      exact ⟨rfl, rfl, Or.inr rfl⟩
    · cases h

/-- When every requested volume is fetched, local, owned compatibly and
contributes no operation, the loop succeeds with the empty plan. -/
theorem cgVolumeLoop_satisfied {s : RState} {cl cg st : String}
    {vs : List String}
    (hsat : ∀ v ∈ vs, ∃ vis owner, is_vir_vol_inuse s v = some (vis, owner) ∧
      vis = "local" ∧ (owner = some cg ∨ owner = none) ∧
      volOpsFor cl cg st owner v = []) :
    cgVolumeLoop s cl cg st vs = .ok [] := by
  induction vs with
  | nil => rfl
  | cons v₀ rest ih =>
    obtain ⟨vis, owner, hlk, hvis, hown, hops⟩ := hsat v₀ (List.mem_cons_self _ _)
    rw [cgVolumeLoop, hlk]
    dsimp only
    rw [if_neg (not_not.mpr hown), if_neg (not_ne_iff.mpr hvis)]
    rw [ih (fun v hv => hsat v (List.mem_cons_of_mem _ hv))]
    simp only [Except.map, hops]
    rfl

/-- Looking up a volume after a name-preserving owner rewrite of the volume
list yields the original visibility and the conditionally rewritten owner. -/
theorem find_owner_map (vols : List VVol) (cl val : String)
    (newOwner : Option String) (v : String) :
    ((vols.map (fun w => if get_v_vol_uri cl w.name = val then
          { w with consistency_group := newOwner } else w)).find?
        (fun w => w.name = v)).map (fun w => (w.visibility, w.consistency_group))
      = ((vols.find? (fun w => w.name = v)).map
          (fun w => (w.visibility, w.consistency_group))).map
          (fun pr => (pr.1, if val = get_v_vol_uri cl v then newOwner else pr.2)) := by
  rw [find?_name_map (fun w => w.name)
    (fun w => if get_v_vol_uri cl w.name = val then
      { w with consistency_group := newOwner } else w)
    (by intro a; dsimp only; split_ifs <;> rfl) v vols]
  cases hf : vols.find? (fun w => w.name = v) with
  | none => rfl
  | some w =>
    have hwv : w.name = v := by
      have := List.find?_some hf
      simpa using this
    simp only [Option.map_some']
    rw [hwv]
    by_cases hu : get_v_vol_uri cl v = val
    · rw [if_pos hu, if_pos hu.symm]
    · rw [if_neg hu, if_neg (fun hh => hu hh.symm)]

theorem applyOps_snd {s : RState} {cl n : String} {ops : List PatchOp}
    (hsh : ∀ op ∈ ops, op.path = "/virtual_volumes" ∧
      (op.op = "add" ∨ op.op = "remove")) :
    (applyOps s cl n ops).2 = n := by
  induction ops generalizing s with
  | nil => rfl
  | cons op t ih =>
    obtain ⟨hp, hor⟩ := hsh op (List.mem_cons_self _ _)
    have hstep : (applyOp s cl n op).2 = n := by
      unfold applyOp
      rcases hor with h | h <;> rw [hp, h] <;> simp
    simp only [applyOps]
    rw [hstep]
    exact ih (fun o ho => hsh o (List.mem_cons_of_mem _ ho))

theorem applyOps_lookup {s : RState} {cl n : String} {ops : List PatchOp}
    (hsh : ∀ op ∈ ops, op.path = "/virtual_volumes" ∧
      (op.op = "add" ∨ op.op = "remove")) (v : String) :
    is_vir_vol_inuse (applyOps s cl n ops).1 v =
      (is_vir_vol_inuse s v).map
        (fun pr => (pr.1, cgOwnerAfter n (get_v_vol_uri cl v) ops pr.2)) := by
  induction ops generalizing s with
  | nil =>
    cases h : is_vir_vol_inuse s v <;> simp [applyOps, cgOwnerAfter, h]
  | cons op t ih =>
    obtain ⟨hp, hor⟩ := hsh op (List.mem_cons_self _ _)
    simp only [applyOps]
    have hsnd : (applyOp s cl n op).2 = n := by
      unfold applyOp
      rcases hor with h | h <;> rw [hp, h] <;> simp
    rw [hsnd, ih (fun o ho => hsh o (List.mem_cons_of_mem _ ho))]
    rcases hor with h | h
    · have hstep : is_vir_vol_inuse (applyOp s cl n op).1 v =
          (is_vir_vol_inuse s v).map (fun pr =>
            (pr.1, if op.value = get_v_vol_uri cl v then some n else pr.2)) := by
        unfold applyOp
        rw [if_pos (And.intro h hp)]
        exact find_owner_map s.vols cl op.value (some n) v
      rw [hstep]
      cases hlk : is_vir_vol_inuse s v with
      | none => rfl
      | some pr =>
        obtain ⟨vis, ow⟩ := pr
        simp [cgOwnerAfter, h, hp]
    · have hstep : is_vir_vol_inuse (applyOp s cl n op).1 v =
          (is_vir_vol_inuse s v).map (fun pr =>
            (pr.1, if op.value = get_v_vol_uri cl v then none else pr.2)) := by
        unfold applyOp
        rw [if_neg (by rw [h]; simp), if_pos (And.intro h hp)]
        exact find_owner_map s.vols cl op.value none v
      rw [hstep]
      cases hlk : is_vir_vol_inuse s v with
      | none => rfl
      | some pr =>
        obtain ⟨vis, ow⟩ := pr
        simp [cgOwnerAfter, h, hp]

end Vplex.CGMod

namespace Vplex.CGMod

/-- Per-volume operations carry the direction and the owner situation that
produced them. -/
theorem volOpsFor_mem_st {cl cg st : String} {owner : Option String}
    {v : String} {op : PatchOp} (h : op ∈ volOpsFor cl cg st owner v) :
    (op.op = "add" ∧ st = "present-in-cg" ∧ owner = none) ∨
      (op.op = "remove" ∧ st = "absent-in-cg" ∧ owner = some cg) := by
  unfold volOpsFor at h
  rcases List.mem_append.mp h with h | h
  · split_ifs at h with h1
    · rcases List.mem_singleton.mp h with rfl
      exact Or.inl ⟨rfl, h1.2, h1.1⟩
    · cases h
  · split_ifs at h with h1
    · rcases List.mem_singleton.mp h with rfl
      exact Or.inr ⟨rfl, h1.2, h1.1⟩
    · cases h

end Vplex.CGMod

namespace Vplex

/-- Owner evolution under a batch of adds: the tracked group if some
operation carries the URI, the original owner otherwise. -/
theorem cgOwnerAfter_all_add {n uri : String} {ops : List PatchOp}
    (h : ∀ op ∈ ops, op.op = "add" ∧ op.path = "/virtual_volumes")
    (o : Option String) :
    cgOwnerAfter n uri ops o =
      if ops.any (fun op => op.value = uri) then some n else o := by
  induction ops generalizing o with
  | nil => simp [cgOwnerAfter]
  | cons op t ih =>
    obtain ⟨ho, hp⟩ := h op (List.mem_cons_self _ _)
    have ih2 := fun o => ih (fun o2 ho2 => h o2 (List.mem_cons_of_mem _ ho2)) o
    rw [cgOwnerAfter, if_pos (And.intro ho hp)]
    by_cases hv : op.value = uri
    · rw [if_pos hv, ih2]
      have : (op :: t).any (fun op => op.value = uri) = true := by
        simp [List.any_cons, hv]
      rw [this, if_pos rfl]
      split_ifs <;> rfl
    · rw [if_neg hv, ih2]
      have : (op :: t).any (fun op => op.value = uri)
          = t.any (fun op => op.value = uri) := by
        simp [List.any_cons, hv]
      rw [this]

/-- Owner evolution under a batch of removes: no owner if some operation
carries the URI, the original owner otherwise. -/
theorem cgOwnerAfter_all_remove {n uri : String} {ops : List PatchOp}
    (h : ∀ op ∈ ops, op.op = "remove" ∧ op.path = "/virtual_volumes")
    (o : Option String) :
    cgOwnerAfter n uri ops o =
      if ops.any (fun op => op.value = uri) then none else o := by
  induction ops generalizing o with
  | nil => simp [cgOwnerAfter]
  | cons op t ih =>
    obtain ⟨ho, hp⟩ := h op (List.mem_cons_self _ _)
    have ih2 := fun o => ih (fun o2 ho2 => h o2 (List.mem_cons_of_mem _ ho2)) o
    rw [cgOwnerAfter, if_neg (by rw [ho]; simp),
      if_pos (And.intro ho hp)]
    by_cases hv : op.value = uri
    · rw [if_pos hv, ih2]
      have : (op :: t).any (fun op => op.value = uri) = true := by
        simp [List.any_cons, hv]
      rw [this, if_pos rfl]
      split_ifs <;> rfl
    · rw [if_neg hv, ih2]
      have : (op :: t).any (fun op => op.value = uri)
          = t.any (fun op => op.value = uri) := by
        simp [List.any_cons, hv]
      rw [this]

end Vplex

namespace Vplex.CGMod

/-- A successful volume loop run re-run on the state the appliance reaches
after applying its plan is satisfied: it produces the empty plan. -/
theorem cgVolumeLoop_twice {s : RState} {cl cg st : String}
    {vs : List String} {pl : List PatchOp}
    (h : cgVolumeLoop s cl cg st vs = .ok pl) :
    cgVolumeLoop (applyOps s cl cg pl).1 cl cg st vs = .ok [] := by
  have hshape : ∀ op ∈ pl, op.path = "/virtual_volumes" ∧
      (op.op = "add" ∨ op.op = "remove") := by
    intro op hop
    obtain ⟨v, hv, vis, owner, hlk, hopv⟩ := (cgVolumeLoop_ok_mem_iff h op).mp hop
    obtain ⟨hp, hval, hor⟩ := volOpsFor_shape hopv
    exact ⟨hp, hor⟩
  apply cgVolumeLoop_satisfied
  intro v hv
  obtain ⟨vis, owner, hlk, hown, hvis⟩ := cgVolumeLoop_ok_mem h v hv
  have hlk2 : is_vir_vol_inuse (applyOps s cl cg pl).1 v =
      some (vis, cgOwnerAfter cg (get_v_vol_uri cl v) pl owner) := by
    rw [applyOps_lookup hshape v, hlk]
    rfl
  have hkey : (cgOwnerAfter cg (get_v_vol_uri cl v) pl owner = some cg ∨
      cgOwnerAfter cg (get_v_vol_uri cl v) pl owner = none) ∧
      volOpsFor cl cg st (cgOwnerAfter cg (get_v_vol_uri cl v) pl owner) v = [] := by
    by_cases hst1 : st = "present-in-cg"
    · subst hst1
      have hadd : ∀ op ∈ pl, op.op = "add" ∧ op.path = "/virtual_volumes" := by
        intro op hop
        obtain ⟨v2, hv2, vis2, owner2, hlk2b, hopv2⟩ :=
          (cgVolumeLoop_ok_mem_iff h op).mp hop
        rcases volOpsFor_mem_st hopv2 with ⟨h1, _, _⟩ | ⟨_, h2, _⟩
        · exact ⟨h1, (volOpsFor_shape hopv2).1⟩
        · exact absurd h2 (by decide)
      rw [cgOwnerAfter_all_add hadd]
      rcases hown with hsome | hnone
      · have ho : (if pl.any (fun op => op.value = get_v_vol_uri cl v)
            then some cg else owner) = some cg := by
          rw [hsome]
          split_ifs <;> rfl
        rw [ho]
        exact ⟨Or.inl rfl, by simp [volOpsFor]⟩
      · have hmem : (⟨"add", "/virtual_volumes", get_v_vol_uri cl v⟩ : PatchOp) ∈ pl := by
          apply (cgVolumeLoop_ok_mem_iff h _).mpr
          refine ⟨v, hv, vis, owner, hlk, ?_⟩
          rw [hnone]
          unfold volOpsFor
          simp
        have hany : pl.any (fun op => op.value = get_v_vol_uri cl v) = true := by
          apply List.any_eq_true.mpr
          exact ⟨_, hmem, by simp⟩
        rw [if_pos hany]
        exact ⟨Or.inl rfl, by simp [volOpsFor]⟩
    · by_cases hst2 : st = "absent-in-cg"
      · subst hst2
        have hrem : ∀ op ∈ pl, op.op = "remove" ∧ op.path = "/virtual_volumes" := by
          intro op hop
          obtain ⟨v2, hv2, vis2, owner2, hlk2b, hopv2⟩ :=
            (cgVolumeLoop_ok_mem_iff h op).mp hop
          rcases volOpsFor_mem_st hopv2 with ⟨_, h2, _⟩ | ⟨h1, _, _⟩
          · exact absurd h2 (by decide)
          · exact ⟨h1, (volOpsFor_shape hopv2).1⟩
        rw [cgOwnerAfter_all_remove hrem]
        rcases hown with hsome | hnone
        · have hmem : (⟨"remove", "/virtual_volumes", get_v_vol_uri cl v⟩ : PatchOp) ∈ pl := by
            apply (cgVolumeLoop_ok_mem_iff h _).mpr
            refine ⟨v, hv, vis, owner, hlk, ?_⟩
            rw [hsome]
            unfold volOpsFor
            simp
          have hany : pl.any (fun op => op.value = get_v_vol_uri cl v) = true := by
            apply List.any_eq_true.mpr
            exact ⟨_, hmem, by simp⟩
          rw [if_pos hany]
          exact ⟨Or.inr rfl, by simp [volOpsFor]⟩
        · have ho : (if pl.any (fun op => op.value = get_v_vol_uri cl v)
              then none else owner) = none := by
            rw [hnone]
            split_ifs <;> rfl
          rw [ho]
          exact ⟨Or.inr rfl, by simp [volOpsFor]⟩
      · have hpl : pl = [] := by
          cases hc : pl with
          | nil => rfl
          | cons op t =>
            exfalso
            have hop : op ∈ pl := by rw [hc]; exact List.mem_cons_self _ _
            obtain ⟨v2, hv2, vis2, owner2, hlk2b, hopv2⟩ :=
              (cgVolumeLoop_ok_mem_iff h op).mp hop
            rcases volOpsFor_mem_st hopv2 with ⟨_, h2, _⟩ | ⟨_, h2, _⟩
            · exact hst1 h2
            · exact hst2 h2
        subst hpl
        simp only [cgOwnerAfter]
        refine ⟨hown, ?_⟩
        simp [volOpsFor, hst1, hst2]
  exact ⟨vis, _, hlk2, hvis, hkey.1, hkey.2⟩

end Vplex.CGMod

namespace Vplex.CGMod

/-- One add or remove operation rewrites the group list by a
name-preserving function. -/
theorem applyOp_cgs {s : RState} {cl n : String} {op : PatchOp}
    (hp : op.path = "/virtual_volumes") (hor : op.op = "add" ∨ op.op = "remove") :
    ∃ F : Grp → Grp, (∀ g, (F g).name = g.name) ∧
      (applyOp s cl n op).1.cgs = s.cgs.map F := by
  rcases hor with h | h
  · refine ⟨fun g => if g.name = n then
      { g with virtual_volumes := g.virtual_volumes ++ [op.value] } else g,
      fun g => by dsimp only; split_ifs <;> rfl, ?_⟩
    unfold applyOp
    rw [if_pos (And.intro h hp)]
  · refine ⟨fun g => if g.name = n then
      { g with virtual_volumes := g.virtual_volumes.filter (fun u => u ≠ op.value) } else g,
      fun g => by dsimp only; split_ifs <;> rfl, ?_⟩
    unfold applyOp
    rw [if_neg (by rw [h]; simp), if_pos (And.intro h hp)]

/-- A batch of add and remove operations rewrites the group list by a
name-preserving function. -/
theorem applyOps_cgs {s : RState} {cl n : String} {ops : List PatchOp}
    (hsh : ∀ op ∈ ops, op.path = "/virtual_volumes" ∧
      (op.op = "add" ∨ op.op = "remove")) :
    ∃ F : Grp → Grp, (∀ g, (F g).name = g.name) ∧
      (applyOps s cl n ops).1.cgs = s.cgs.map F := by
  induction ops generalizing s with
  | nil => exact ⟨id, fun g => rfl, (List.map_id _).symm⟩
  | cons op t ih =>
    obtain ⟨hp, hor⟩ := hsh op (List.mem_cons_self _ _)
    obtain ⟨F₀, hF₀name, hF₀⟩ := @applyOp_cgs s cl n op hp hor
    have hsnd : (applyOp s cl n op).2 = n := by
      unfold applyOp
      rcases hor with h | h <;> rw [hp, h] <;> simp
    obtain ⟨F₁, hF₁name, hF₁⟩ := @ih ((applyOp s cl n op).1)
      (fun o ho => hsh o (List.mem_cons_of_mem _ ho))
    refine ⟨F₁ ∘ F₀, fun g => (hF₁name _).trans (hF₀name g), ?_⟩
    simp only [applyOps]
    rw [hsnd, hF₁, hF₀, List.map_map]

/-- Fetching any group after a batch of add and remove operations returns
the rewritten original record under the same name. -/
theorem applyOps_get_cgrp {s : RState} {cl n : String} {ops : List PatchOp}
    (hsh : ∀ op ∈ ops, op.path = "/virtual_volumes" ∧
      (op.op = "add" ∨ op.op = "remove")) :
    ∃ F : Grp → Grp, (∀ g, (F g).name = g.name) ∧
      ∀ m, get_cgrp (applyOps s cl n ops).1 m = (get_cgrp s m).map F := by
  obtain ⟨F, hname, hcgs⟩ := @applyOps_cgs s cl n ops hsh
  refine ⟨F, hname, fun m => ?_⟩
  unfold get_cgrp
  rw [hcgs]
  exact find?_name_map (fun g => g.name) F hname m s.cgs

end Vplex.CGMod

namespace Vplex.CGMod

/-- A successful tail run, in the absence of a rename request, leaves a
state that satisfies the same request: re-running the tail from the
fetched record issues no call, reports changed false and returns the same
details. -/
theorem cgAfterCreate_twice {s : RState} {p : Params} {g : Grp} {ch : Bool}
    {cs : List Call} {s₁ : RState} {c : Bool} {d : Option Grp} {cs₁ : List Call}
    (hnr : truthyStr p.new_cg_name = false)
    (hg : get_cgrp s p.cg_name = some g)
    (h : cgAfterCreate s p g ch cs = (s₁, .ok c d, cs₁)) :
    ∃ g₁, get_cgrp s₁ p.cg_name = some g₁ ∧ d = some g₁ ∧
      cgAfterCreate s₁ p g₁ false [] = (s₁, .ok false (some g₁), []) := by
  unfold cgAfterCreate at h
  cases hL : (if truthyList p.virtual_volumes ∧ truthyStr p.virtual_volume_state then
      cgVolumeLoop s p.cluster_name p.cg_name
        (p.virtual_volume_state.getD "") ((p.virtual_volumes).getD [])
    else .ok []) with
  | error m =>
    rw [hL] at h
    exact absurd (congrArg (fun t => t.2.1) h) (by simp)
  | ok volOps =>
    rw [hL] at h
    dsimp only at h
    rw [if_neg (by rw [hnr]; exact Bool.false_ne_true)] at h
    dsimp only at h
    rw [List.append_nil] at h
    by_cases hpl : volOps = []
    · subst hpl
      rw [if_pos rfl] at h
      have hs : s = s₁ := congrArg (fun t => t.1) h
      have ho : (Outcome.ok ch (some g) : Outcome Grp) = .ok c d :=
        congrArg (fun t => t.2.1) h
      injection ho with hoc hod
      refine ⟨g, ?_, hod.symm, ?_⟩
      · rw [← hs]; exact hg
      · rw [← hs]
        unfold cgAfterCreate
        rw [hL]
        dsimp only
        rw [if_neg (by rw [hnr]; exact Bool.false_ne_true)]
        dsimp only
        rw [List.append_nil, if_pos rfl]
    · rw [if_neg hpl] at h
      have hguard : truthyList p.virtual_volumes ∧ truthyStr p.virtual_volume_state := by
        by_contra hng
        rw [if_neg hng] at hL
        injection hL with hL2
        exact hpl hL2.symm
      have hloop : cgVolumeLoop s p.cluster_name p.cg_name
          (p.virtual_volume_state.getD "") ((p.virtual_volumes).getD []) = .ok volOps := by
        rw [if_pos hguard] at hL
        exact hL
      have hshape : ∀ op ∈ volOps, op.path = "/virtual_volumes" ∧
          (op.op = "add" ∨ op.op = "remove") := by
        intro op hop
        obtain ⟨v, hv, vis, owner, hlk, hopv⟩ :=
          (cgVolumeLoop_ok_mem_iff hloop op).mp hop
        obtain ⟨hpth, hval2, hor⟩ := volOpsFor_shape hopv
        exact ⟨hpth, hor⟩
      have hs : s₁ = (applyOps s p.cluster_name p.cg_name volOps).1 := by
        have := congrArg (fun t => t.1) h
        exact this.symm
      obtain ⟨F, hFname, hFget⟩ :=
        @applyOps_get_cgrp s p.cluster_name p.cg_name volOps hshape
      have hget₁ : get_cgrp s₁ p.cg_name = some (F g) := by
        rw [hs, hFget, hg]
        rfl
      have hd : d = some (F g) := by
        have ho : (Outcome.ok true (update_cgrp s p.cluster_name p.cg_name volOps).2
            : Outcome Grp) = .ok c d := congrArg (fun t => t.2.1) h
        injection ho with hoc hod
        rw [← hod]
        unfold update_cgrp
        dsimp only
        rw [applyOps_snd hshape]
        have h2 : (applyOps s p.cluster_name p.cg_name volOps).1.cgs.find?
            (fun g => g.name = p.cg_name) = get_cgrp (applyOps s p.cluster_name
              p.cg_name volOps).1 p.cg_name := rfl
        rw [h2, ← hs, hget₁]
      refine ⟨F g, hget₁, hd, ?_⟩
      subst hs
      unfold cgAfterCreate
      rw [if_pos hguard, cgVolumeLoop_twice hloop]
      dsimp only
      rw [if_neg (by rw [hnr]; exact Bool.false_ne_true)]
      dsimp only
      rw [List.append_nil, if_pos rfl]

end Vplex.CGMod

namespace Vplex.CGMod

/-- Without a rename request, a successful consistency-group run leaves a
state that satisfies the same request: the rerun issues no call, reports
changed false, and returns the same details. -/
theorem cgRun_twice {s : RState} {p : Params} {s₁ : RState} {c : Bool}
    {d : Option Grp} {cs : List Call}
    (hnr : truthyStr p.new_cg_name = false)
    (h : cgRun s p = (s₁, .ok c d, cs)) :
    cgRun s₁ p = (s₁, .ok false d, []) := by
  unfold cgRun at h ⊢
  by_cases hval : (validate_name p.cg_name 63 "cg_name").1 = false
  · rw [if_pos hval] at h
    exact absurd (congrArg (fun t => t.2.1) h) (by simp)
  · rw [if_neg hval] at h
    rw [if_neg hval]
    cases hget : get_cgrp s p.cg_name with
    | some g =>
      rw [hget] at h
      dsimp only at h
      by_cases habs : p.state = "absent"
      · rw [if_pos habs] at h
        have hs : s₁ = ({ s with
            cgs := s.cgs.filter (fun g₀ => g₀.name ≠ p.cg_name),
            vols := s.vols.map fun w =>
              if w.consistency_group = some p.cg_name then
                { w with consistency_group := none }
              else w } : RState) := (congrArg (fun t => t.1) h).symm
        have ho : (Outcome.ok true (none : Option Grp)) = .ok c d :=
          congrArg (fun t => t.2.1) h
        injection ho with hoc hod
        have hget₁ : get_cgrp s₁ p.cg_name = none := by
          rw [hs]
          unfold get_cgrp
          dsimp only
          exact find?_filter_ne (fun g => g.name) p.cg_name s.cgs
        rw [hget₁]
        dsimp only
        rw [if_pos habs, ← hod]
      · by_cases hpres : p.state = "present"
        · rw [if_neg habs, if_pos hpres] at h
          obtain ⟨g₁, hget₁, hd, hrun2⟩ := cgAfterCreate_twice hnr hget h
          rw [hget₁]
          dsimp only
          rw [if_neg habs, if_pos hpres, hd]
          exact hrun2
        · rw [if_neg habs, if_neg hpres] at h
          have hs : s₁ = s := (congrArg (fun t => t.1) h).symm
          have ho : (Outcome.ok false (some g)) = .ok c d :=
            congrArg (fun t => t.2.1) h
          injection ho with hoc hod
          subst hs
          rw [hget]
          dsimp only
          rw [if_neg habs, if_neg hpres, ← hod]
    | none =>
      rw [hget] at h
      dsimp only at h
      by_cases habs : p.state = "absent"
      · rw [if_pos habs] at h
        have hs : s₁ = s := (congrArg (fun t => t.1) h).symm
        have ho : (Outcome.ok false (none : Option Grp)) = .ok c d :=
          congrArg (fun t => t.2.1) h
        injection ho with hoc hod
        subst hs
        rw [hget]
        dsimp only
        rw [if_pos habs, ← hod]
      · by_cases hpres : p.state = "present"
        · rw [if_neg habs, if_pos hpres] at h
          by_cases hdcg : (check_name_in_distributed_cg s p.cg_name).isSome
          · rw [if_pos hdcg] at h
            exact absurd (congrArg (fun t => t.2.1) h) (by simp)
          · rw [if_neg hdcg, if_neg (by rw [hnr]; exact Bool.false_ne_true)] at h
            have hg₀ : get_cgrp ({ s with cgs := s.cgs ++ [⟨p.cg_name, []⟩] } : RState)
                p.cg_name = some ⟨p.cg_name, []⟩ := by
              unfold get_cgrp
              dsimp only
              rw [find?_append_none _ _ hget]
              simp
            obtain ⟨g₁, hget₁, hd, hrun2⟩ := cgAfterCreate_twice hnr hg₀ h
            rw [hget₁]
            dsimp only
            rw [if_neg habs, if_pos hpres, hd]
            exact hrun2
        · rw [if_neg habs, if_neg hpres] at h
          have hs : s₁ = s := (congrArg (fun t => t.1) h).symm
          have ho : (Outcome.ok false (none : Option Grp)) = .ok c d :=
            congrArg (fun t => t.2.1) h
          injection ho with hoc hod
          subst hs
          rw [hget]
          dsimp only
          rw [if_neg habs, if_neg hpres, ← hod]

end Vplex.CGMod

namespace Vplex.CGMod

/-- A request that the current state already satisfies (every requested
volume fetched, local, owned compatibly, contributing no operation, and
any requested new name equal to the current one) exits with changed false,
the current record, and no mutating call. -/
theorem cgRun_satisfied {s : RState} {p : Params} {g : Grp}
    (hval : (validate_name p.cg_name 63 "cg_name").1 = true)
    (hpres : p.state = "present")
    (hg : get_cgrp s p.cg_name = some g)
    (hsat : ∀ v ∈ (p.virtual_volumes).getD [], ∃ vis owner,
      is_vir_vol_inuse s v = some (vis, owner) ∧ vis = "local" ∧
      (owner = some p.cg_name ∨ owner = none) ∧
      volOpsFor p.cluster_name p.cg_name ((p.virtual_volume_state).getD "")
        owner v = [])
    (hren : truthyStr p.new_cg_name = false ∨
      (p.new_cg_name = some g.name ∧
        (validate_name g.name 63 "new_cg_name").1 = true)) :
    cgRun s p = (s, .ok false (some g), []) := by
  unfold cgRun
  rw [if_neg (by rw [hval]; decide), hg]
  dsimp only
  rw [if_neg (by rw [hpres]; decide), if_pos hpres]
  unfold cgAfterCreate
  have hL : (if truthyList p.virtual_volumes ∧ truthyStr p.virtual_volume_state then
      cgVolumeLoop s p.cluster_name p.cg_name
        (p.virtual_volume_state.getD "") ((p.virtual_volumes).getD [])
    else .ok []) = .ok [] := by
    split_ifs with hgu
    · exact cgVolumeLoop_satisfied hsat
    · rfl
  rw [hL]
  dsimp only
  by_cases htr : truthyStr p.new_cg_name
  · rcases hren with hnr | ⟨hnew, hnval⟩
    · rw [hnr] at htr
      cases htr
    · rw [if_pos htr, hnew, Option.getD_some]
      unfold cgRenameStage
      rw [if_neg (by rw [hnval]; decide), if_pos rfl]
      dsimp only
      rw [List.append_nil, if_pos rfl]
  · rw [if_neg htr]
    dsimp only
    rw [List.append_nil, if_pos rfl]

end Vplex.CGMod

namespace Vplex.MigMod

/-- A patch application never changes the source URI. -/
theorem applyMigOp_source (j : MigJob) (op : MigPatchOp) :
    (applyMigOp j op).source = j.source := by
  unfold applyMigOp
  split_ifs <;> first | rfl | (cases op.value <;> rfl)

/-- A patch application never changes the target URI. -/
theorem applyMigOp_target (j : MigJob) (op : MigPatchOp) :
    (applyMigOp j op).target = j.target := by
  unfold applyMigOp
  split_ifs <;> first | rfl | (cases op.value <;> rfl)

/-- Folding patch applications preserves the source URI. -/
theorem foldl_applyMigOp_source (pl : List MigPatchOp) (j : MigJob) :
    (pl.foldl applyMigOp j).source = j.source := by
  induction pl generalizing j with
  | nil => rfl
  | cons op t ih => rw [List.foldl_cons, ih, applyMigOp_source]

/-- Folding patch applications preserves the target URI. -/
theorem foldl_applyMigOp_target (pl : List MigPatchOp) (j : MigJob) :
    (pl.foldl applyMigOp j).target = j.target := by
  induction pl generalizing j with
  | nil => rfl
  | cons op t ih => rw [List.foldl_cons, ih, applyMigOp_target]

/-- An operation on /transfer_size leaves the status alone. -/
theorem applyMigOp_ts_status (j : MigJob) (op : MigPatchOp)
    (hp : op.path = "/transfer_size") :
    (applyMigOp j op).status = j.status := by
  unfold applyMigOp
  rw [if_neg (by rw [hp]; simp)]
  split_ifs <;> first | rfl | (cases op.value <;> rfl)

/-- An operation on /status leaves the transfer size alone. -/
theorem applyMigOp_st_ts (j : MigJob) (op : MigPatchOp)
    (hp : op.path = "/status") :
    (applyMigOp j op).transfer_size = j.transfer_size := by
  unfold applyMigOp
  split_ifs with h1 h2
  · cases op.value <;> rfl
  · exact absurd h2.2 (by rw [hp]; simp)
  · rfl

/-- The status block emits only replace operations on /status. -/
theorem statusPlan_shape {j : MigJob} {st : String} {stOps : List MigPatchOp}
    (h : statusPlan j st = .ok stOps) :
    ∀ op ∈ stOps, op.op = "replace" ∧ op.path = "/status" := by
  unfold statusPlan at h
  split_ifs at h with h1 h2
  · injection h with h3
    subst h3
    intro op hop
    cases hop
  · injection h with h3
    subst h3
    intro op hop
    rcases List.mem_singleton.mp hop with rfl
    exact ⟨rfl, rfl⟩

/-- After a successful status block for one of the four requestable
statuses, the patched job sits at the idempotent target status of the
request. -/
theorem statusPlan_after {j : MigJob} {st : String} {stOps : List MigPatchOp}
    (hst : st = "pause" ∨ st = "resume" ∨ st = "commit" ∨ st = "cancel")
    (h : statusPlan j st = .ok stOps) :
    some ((stOps.foldl applyMigOp j).status) = operations_idem st := by
  have hsome : (operations_idem st).isSome = true := by
    rcases hst with h1 | h1 | h1 | h1 <;> rw [h1] <;> rfl
  unfold statusPlan at h
  split_ifs at h with h1 h2
  · injection h with h3
    subst h3
    exact h1.2
  · injection h with h3
    subst h3
    simp only [List.foldl_cons, List.foldl_nil]
    unfold applyMigOp
    rw [if_pos (And.intro rfl rfl)]
    dsimp only
    obtain ⟨tgt, htgt⟩ := Option.isSome_iff_exists.mp hsome
    rw [htgt]
    rfl

/-- The transfer block emits only replace operations on /transfer_size. -/
theorem transferPlan_shape {j : MigJob} {ts : Int} {tsOps : List MigPatchOp}
    (h : transferPlan j ts = .ok tsOps) :
    ∀ op ∈ tsOps, op.op = "replace" ∧ op.path = "/transfer_size" := by
  unfold transferPlan at h
  split_ifs at h with h1 h2
  · injection h with h3
    subst h3
    intro op hop
    cases hop
  · injection h with h3
    subst h3
    intro op hop
    rcases List.mem_singleton.mp hop with rfl
    exact ⟨rfl, rfl⟩

/-- After a successful transfer block, applying its operations to any job
that currently carries the original transfer size stores the requested
size. -/
theorem transferPlan_after {j : MigJob} {ts : Int} {tsOps : List MigPatchOp}
    (h : transferPlan j ts = .ok tsOps) (j₂ : MigJob)
    (hts : j₂.transfer_size = j.transfer_size) :
    (tsOps.foldl applyMigOp j₂).transfer_size = ts := by
  unfold transferPlan at h
  split_ifs at h with h1 h2
  · injection h with h3
    subst h3
    simp only [List.foldl_nil]
    rw [hts, ← h1]
  · injection h with h3
    subst h3
    simp only [List.foldl_cons, List.foldl_nil]
    unfold applyMigOp
    rw [if_neg (by simp)]
    rw [if_pos (And.intro rfl rfl)]

end Vplex.MigMod

namespace Vplex.MigMod

/-- A status block replanned at the idempotent target is empty. -/
theorem statusPlan_idem {j₁ : MigJob} {st : String}
    (h : some j₁.status = operations_idem st) : statusPlan j₁ st = .ok [] := by
  unfold statusPlan
  rw [if_pos (And.intro (by rw [← h]; rfl) h)]

/-- A transfer block replanned at the stored size is empty. -/
theorem transferPlan_idem {j₁ : MigJob} {ts : Int}
    (h : ts = j₁.transfer_size) : transferPlan j₁ ts = .ok [] := by
  unfold transferPlan
  rw [if_pos h]

/-- Operations on /transfer_size leave the status alone. -/
theorem foldl_ts_status {tsOps : List MigPatchOp}
    (h : ∀ op ∈ tsOps, op.path = "/transfer_size") (j : MigJob) :
    (tsOps.foldl applyMigOp j).status = j.status := by
  induction tsOps generalizing j with
  | nil => rfl
  | cons op t ih =>
    rw [List.foldl_cons, ih (fun o ho => h o (List.mem_cons_of_mem _ ho)),
      applyMigOp_ts_status _ _ (h op (List.mem_cons_self _ _))]

/-- Operations on /status leave the transfer size alone. -/
theorem foldl_st_ts {stOps : List MigPatchOp}
    (h : ∀ op ∈ stOps, op.path = "/status") (j : MigJob) :
    (stOps.foldl applyMigOp j).transfer_size = j.transfer_size := by
  induction stOps generalizing j with
  | nil => rfl
  | cons op t ih =>
    rw [List.foldl_cons, ih (fun o ho => h o (List.mem_cons_of_mem _ ho)),
      applyMigOp_st_ts _ _ (h op (List.mem_cons_self _ _))]

end Vplex.MigMod

namespace Vplex.MigMod

/-- migMain is its two planning blocks followed by the tail. -/
theorem migMain_eq (jobs : List MigJob) (p : MigParams) (job : Option MigJob)
    (cf ch : Bool) (cs : List MigCall) :
    migMain jobs p job cf ch cs =
      match (match job with
        | some j =>
          if (cf ∧ ¬ (p.status = some "pause" ∨ p.status = none)) ∨
              (¬ cf ∧ truthyStr p.status) then
            statusPlan j (p.status.getD "")
          else .ok []
        | none => .ok []) with
      | .error m => (jobs, .fail m, cs)
      | .ok stOps =>
        match (match job with
          | some j =>
            if ¬ cf ∧ truthyInt p.transfer_size ∧ p.state = "present" then
              transferPlan j (p.transfer_size.getD 0)
            else .ok []
          | none => .ok []) with
        | .error m => (jobs, .fail m, cs)
        | .ok tsOps => migTail jobs p job ch cs (stOps ++ tsOps) := rfl

/-- The tail on an empty payload: no patch call, the fetched job and the
changed flag pass through. -/
theorem migTail_nil (jobs : List MigJob) (p : MigParams) (job : Option MigJob)
    (ch : Bool) (cs : List MigCall) :
    migTail jobs p job ch cs [] =
      (if job = none ∧ p.state = "absent" then (jobs, .ok false none, cs)
      else if job.isSome ∧ p.state = "absent" then
        match job with
        | some j =>
          if ¬ (j.status = "cancelled" ∨ j.status = "committed") then
            (jobs, .fail ("Could not remove migration record for " ++ j.name ++
              ". The migration must first be cancelled or committed."), cs)
          else
            (jobs.filter (fun j₀ => j₀.name ≠ p.migration_name), .ok true none,
              cs ++ [.delete p.migration_name])
        | none => (jobs, .ok false none, cs)
      else (jobs, .ok ch job, cs)) := rfl

/-- The tail on a non-empty payload: the patch call is issued, the job is
re-fetched, the changed flag is set. -/
theorem migTail_cons (jobs : List MigJob) (p : MigParams) (job : Option MigJob)
    (ch : Bool) (cs : List MigCall) (op : MigPatchOp) (t : List MigPatchOp) :
    migTail jobs p job ch cs (op :: t) =
      (let jobs₂ := applyMigOps jobs p.migration_name (op :: t)
      let job₂ := jobs₂.find? (fun j => j.name = p.migration_name)
      let calls₂ := cs ++ [.patch p.migration_name (op :: t)]
      if job₂ = none ∧ p.state = "absent" then (jobs₂, .ok false none, calls₂)
      else if job₂.isSome ∧ p.state = "absent" then
        match job₂ with
        | some j =>
          if ¬ (j.status = "cancelled" ∨ j.status = "committed") then
            (jobs₂, .fail ("Could not remove migration record for " ++ j.name ++
              ". The migration must first be cancelled or committed."), calls₂)
          else
            (jobs₂.filter (fun j₀ => j₀.name ≠ p.migration_name), .ok true none,
              calls₂ ++ [.delete p.migration_name])
        | none => (jobs₂, .ok false none, calls₂)
      else (jobs₂, .ok true job₂, calls₂)) := rfl

end Vplex.MigMod

namespace Vplex.MigMod

/-- A successful tail run on an existing (non-created) job leaves a state
that satisfies the same request: on a delete the job is gone, otherwise
the rerun of the tail from the patched record is a no-call no-change
success returning the same details. -/
theorem migMain_twice {jobs : List MigJob} {p : MigParams} {j : MigJob}
    {jobs₁ : List MigJob} {c : Bool} {d : Option MigJob} {cs : List MigCall}
    (hfind : jobs.find? (fun j₀ => j₀.name = p.migration_name) = some j)
    (hst : p.status = none ∨ ∃ st0, p.status = some st0 ∧
      (st0 = "pause" ∨ st0 = "resume" ∨ st0 = "commit" ∨ st0 = "cancel"))
    (h : migMain jobs p (some j) false false [] = (jobs₁, .ok c d, cs)) :
    (p.state = "absent" →
      jobs₁.find? (fun j₀ => j₀.name = p.migration_name) = none ∧ d = none) ∧
    (p.state ≠ "absent" → ∃ j₁,
      jobs₁.find? (fun j₀ => j₀.name = p.migration_name) = some j₁ ∧
      d = some j₁ ∧ j₁.source = j.source ∧ j₁.target = j.target ∧
      migMain jobs₁ p (some j₁) false false [] = (jobs₁, .ok false (some j₁), [])) := by
  rw [migMain_eq] at h
  dsimp only at h
  obtain ⟨stOps, tsOps, hsh1, hsh2, hrs, hrt, h⟩ : ∃ stOps tsOps,
      (∀ op ∈ stOps, op.op = "replace" ∧ op.path = "/status") ∧
      (∀ op ∈ tsOps, op.op = "replace" ∧ op.path = "/transfer_size") ∧
      (∀ j₁ : MigJob, j₁.status = ((stOps ++ tsOps).foldl applyMigOp j).status →
        (if (false = true ∧ ¬ (p.status = some "pause" ∨ p.status = none)) ∨
            (¬ (false = true) ∧ truthyStr p.status = true) then
          statusPlan j₁ (p.status.getD "")
        else .ok []) = .ok []) ∧
      (∀ j₁ : MigJob,
        j₁.transfer_size = ((stOps ++ tsOps).foldl applyMigOp j).transfer_size →
        (if ¬ (false = true) ∧ truthyInt p.transfer_size = true ∧
            p.state = "present" then
          transferPlan j₁ (p.transfer_size.getD 0)
        else .ok []) = .ok []) ∧
      migTail jobs p (some j) false [] (stOps ++ tsOps) = (jobs₁, .ok c d, cs) := by
    have hfoldapp : ∀ (a b : List MigPatchOp),
        (a ++ b).foldl applyMigOp j = b.foldl applyMigOp (a.foldl applyMigOp j) :=
      fun a b => List.foldl_append _ _ _ _
    rcases hst with h0 | ⟨st0, hps, hfour⟩
    · -- no requested status: the status block is skipped in both runs
      rw [h0] at h ⊢
      rw [if_neg (by decide)] at h
      dsimp only at h
      by_cases hts : truthyInt p.transfer_size = true ∧ p.state = "present"
      · rw [if_pos (And.intro (by decide) (And.intro hts.1 hts.2))] at h
        cases htp : transferPlan j (p.transfer_size.getD 0) with
        | error m =>
          rw [htp] at h
          exact absurd (congrArg (fun t => t.2.1) h) (by simp)
        | ok tsOps =>
          rw [htp] at h
          dsimp only at h
          refine ⟨[], tsOps, fun op hop => absurd hop (by simp),
            transferPlan_shape htp, fun j₁ _ => by rw [if_neg (by decide)],
            fun j₁ hts1 => ?_, h⟩
          rw [if_pos (And.intro (by decide) (And.intro hts.1 hts.2))]
          apply transferPlan_idem
          rw [hts1, List.nil_append]
          exact (transferPlan_after htp j rfl).symm
      · rw [if_neg (fun hc => hts (And.intro hc.2.1 hc.2.2))] at h
        dsimp only at h
        refine ⟨[], [], fun op hop => absurd hop (by simp),
          fun op hop => absurd hop (by simp),
          fun j₁ _ => by rw [if_neg (by decide)],
          fun j₁ _ => by rw [if_neg (fun hc => hts (And.intro hc.2.1 hc.2.2))], h⟩
    · -- a requested status among the four choices
      have hne : st0 ≠ "" := by
        rcases hfour with h1 | h1 | h1 | h1 <;> rw [h1] <;> decide
      have htr : truthyStr p.status = true := by
        rw [hps]
        simp [truthyStr, hne]
      rw [hps] at h ⊢
      rw [if_pos (Or.inr (And.intro (by decide) (by
        rw [hps] at htr
        exact htr))), Option.getD_some] at h
      cases hsp : statusPlan j st0 with
      | error m =>
        rw [hsp] at h
        exact absurd (congrArg (fun t => t.2.1) h) (by simp)
      | ok stOps =>
        rw [hsp] at h
        dsimp only at h
        have hrs : ∀ (tsOps : List MigPatchOp),
            (∀ op ∈ tsOps, op.op = "replace" ∧ op.path = "/transfer_size") →
            ∀ j₁ : MigJob,
            j₁.status = ((stOps ++ tsOps).foldl applyMigOp j).status →
            (if (false = true ∧ ¬ ((some st0 : Option String) = some "pause" ∨
                (some st0 : Option String) = none)) ∨
                (¬ (false = true) ∧ truthyStr (some st0) = true) then
              statusPlan j₁ ((some st0 : Option String).getD "")
            else .ok []) = .ok [] := by
          intro tsOps hsh2 j₁ hst1
          rw [if_pos (Or.inr (And.intro (by decide) (by
            rw [hps] at htr
            exact htr))), Option.getD_some]
          apply statusPlan_idem
          rw [hst1, hfoldapp, foldl_ts_status (fun op hop => (hsh2 op hop).2)]
          exact statusPlan_after hfour hsp
        by_cases hts : truthyInt p.transfer_size = true ∧ p.state = "present"
        · rw [if_pos (And.intro (by decide) (And.intro hts.1 hts.2))] at h
          cases htp : transferPlan j (p.transfer_size.getD 0) with
          | error m =>
            rw [htp] at h
            exact absurd (congrArg (fun t => t.2.1) h) (by simp)
          | ok tsOps =>
            rw [htp] at h
            dsimp only at h
            refine ⟨stOps, tsOps, statusPlan_shape hsp, transferPlan_shape htp,
              hrs tsOps (transferPlan_shape htp), fun j₁ hts1 => ?_, h⟩
            rw [if_pos (And.intro (by decide) (And.intro hts.1 hts.2))]
            apply transferPlan_idem
            rw [hts1, hfoldapp]
            exact (transferPlan_after htp _
              (foldl_st_ts (fun op hop => (statusPlan_shape hsp op hop).2) j)).symm
        · rw [if_neg (fun hc => hts (And.intro hc.2.1 hc.2.2))] at h
          dsimp only at h
          refine ⟨stOps, [], statusPlan_shape hsp,
            fun op hop => absurd hop (by simp),
            hrs [] (fun op hop => absurd hop (by simp)),
            fun j₁ _ => by rw [if_neg (fun hc => hts (And.intro hc.2.1 hc.2.2))], h⟩
  cases hplc : stOps ++ tsOps with
  | nil =>
    rw [hplc] at h hrs hrt
    rw [migTail_nil] at h
    simp only [List.foldl_nil] at hrs hrt
    rw [if_neg (by simp)] at h
    by_cases habs : p.state = "absent"
    · rw [if_pos (And.intro (Option.isSome_some : (Option.some j).isSome = true) habs)] at h
      dsimp only at h
      by_cases hcc : ¬ (j.status = "cancelled" ∨ j.status = "committed")
      · rw [if_pos hcc] at h
        exact absurd (congrArg (fun t => t.2.1) h) (by simp)
      · rw [if_neg hcc] at h
        have hjobs : jobs₁ = jobs.filter (fun j₀ => j₀.name ≠ p.migration_name) :=
          (congrArg (fun t => t.1) h).symm
        have ho : (Outcome.ok true (none : Option MigJob)) = .ok c d :=
          congrArg (fun t => t.2.1) h
        injection ho with hoc hod
        refine ⟨fun _ => ⟨?_, hod.symm⟩, fun hne => absurd habs hne⟩
        rw [hjobs]
        exact find?_filter_ne (fun j₀ => j₀.name) p.migration_name jobs
    · rw [if_neg (fun hc => habs hc.2)] at h
      have hjobs : jobs₁ = jobs := (congrArg (fun t => t.1) h).symm
      have ho : (Outcome.ok false (some j)) = .ok c d :=
        congrArg (fun t => t.2.1) h
      injection ho with hoc hod
      refine ⟨fun habs2 => absurd habs2 habs, fun _ => ⟨j, ?_, hod.symm, rfl, rfl, ?_⟩⟩
      · rw [hjobs]
        exact hfind
      · rw [migMain_eq]
        dsimp only
        rw [hrs j rfl]
        dsimp only
        rw [hrt j rfl]
        dsimp only
        rw [List.nil_append, migTail_nil]
        rw [if_neg (by simp), if_neg (fun hc => habs hc.2)]
  | cons op t =>
    rw [hplc] at h hrs hrt
    rw [migTail_cons] at h
    dsimp only at h
    have hfind₂ : (applyMigOps jobs p.migration_name (op :: t)).find?
        (fun j₀ => j₀.name = p.migration_name) =
        some ((op :: t).foldl applyMigOp j) := by
      rw [applyMigOps_find?, hfind]
      rfl
    rw [hfind₂] at h
    rw [if_neg (by simp)] at h
    by_cases habs : p.state = "absent"
    · rw [if_pos (And.intro (Option.isSome_some :
        (Option.some ((op :: t).foldl applyMigOp j)).isSome = true) habs)] at h
      dsimp only at h
      by_cases hcc : ¬ (((op :: t).foldl applyMigOp j).status = "cancelled" ∨
          ((op :: t).foldl applyMigOp j).status = "committed")
      · rw [if_pos hcc] at h
        exact absurd (congrArg (fun t => t.2.1) h) (by simp)
      · rw [if_neg hcc] at h
        have hjobs : jobs₁ = (applyMigOps jobs p.migration_name (op :: t)).filter
            (fun j₀ => j₀.name ≠ p.migration_name) :=
          (congrArg (fun t => t.1) h).symm
        have ho : (Outcome.ok true (none : Option MigJob)) = .ok c d :=
          congrArg (fun t => t.2.1) h
        injection ho with hoc hod
        refine ⟨fun _ => ⟨?_, hod.symm⟩, fun hne => absurd habs hne⟩
        rw [hjobs]
        exact find?_filter_ne (fun j₀ : MigJob => j₀.name) p.migration_name _
    · rw [if_neg (fun hc => habs hc.2)] at h
      have hjobs : jobs₁ = applyMigOps jobs p.migration_name (op :: t) :=
        (congrArg (fun t => t.1) h).symm
      have ho : (Outcome.ok true (some ((op :: t).foldl applyMigOp j))) = .ok c d :=
        congrArg (fun t => t.2.1) h
      injection ho with hoc hod
      refine ⟨fun habs2 => absurd habs2 habs,
        fun _ => ⟨(op :: t).foldl applyMigOp j, ?_, hod.symm,
          foldl_applyMigOp_source _ _, foldl_applyMigOp_target _ _, ?_⟩⟩
      · rw [hjobs]
        exact hfind₂
      · rw [migMain_eq]
        dsimp only
        rw [hrs _ rfl]
        dsimp only
        rw [hrt _ rfl]
        dsimp only
        rw [List.nil_append, migTail_nil]
        rw [if_neg (by simp), if_neg (fun hc => habs hc.2)]

end Vplex.MigMod

namespace Vplex.MigMod

/-- For an already existing job and a requestable status choice, a
successful migration run leaves a state that satisfies the same request:
the rerun issues no call, reports changed false, and returns the same
details. -/
theorem migRun_twice {env : MigEnv} {jobs : List MigJob} {p : MigParams}
    {jobs₁ : List MigJob} {c : Bool} {d : Option MigJob} {cs : List MigCall}
    (hjob : (jobs.find? (fun j₀ => j₀.name = p.migration_name)).isSome = true)
    (hst : p.status = none ∨ ∃ st0, p.status = some st0 ∧
      (st0 = "pause" ∨ st0 = "resume" ∨ st0 = "commit" ∨ st0 = "cancel"))
    (h : migRun env jobs p = (jobs₁, .ok c d, cs)) :
    migRun env jobs₁ p = (jobs₁, .ok false d, []) := by
  obtain ⟨j, hfind⟩ := Option.isSome_iff_exists.mp hjob
  unfold migRun at h ⊢
  by_cases hval : (validate_name p.migration_name 63 "migration job name").1 = false
  · rw [if_pos hval] at h
    exact absurd (congrArg (fun t => t.2.1) h) (by simp)
  · rw [if_neg hval] at h
    rw [if_neg hval]
    dsimp only at h ⊢
    cases hts : (if truthyInt p.transfer_size = true then
        validate_transfer_size (p.transfer_size.getD 0) else none) with
    | some m =>
      rw [hts] at h
      exact absurd (congrArg (fun t => t.2.1) h) (by simp)
    | none =>
      rw [hts] at h
      dsimp only at h ⊢
      rw [hfind] at h
      dsimp only at h
      by_cases hcond : p.state = "present" ∧ truthyStr p.source_name = true ∧
          truthyStr p.target_name = true ∧ truthyStr p.cluster_name = true
      · rw [if_pos hcond] at h
        by_cases hmatch : j.source = "/vplex/v2/clusters/" ++ (p.cluster_name.getD "")
              ++ "/" ++ storageURI p.storage ++ "/" ++ (p.source_name.getD "") ∧
            j.target = "/vplex/v2/clusters/" ++ ((match p.target_cluster with
              | none => p.cluster_name
              | some t => some t).getD "")
              ++ "/" ++ storageURI p.storage ++ "/" ++ (p.target_name.getD "")
        · rw [if_pos hmatch] at h
          obtain ⟨hparts1, hparts2⟩ := migMain_twice hfind hst h
          obtain ⟨j₁, hfind₁, hd, hsrc, htgt, hrun2⟩ :=
            hparts2 (by rw [hcond.1]; decide)
          rw [hfind₁]
          dsimp only
          rw [if_pos hcond, if_pos (And.intro (by rw [hsrc]; exact hmatch.1)
            (by rw [htgt]; exact hmatch.2)), hd]
          exact hrun2
        · rw [if_neg hmatch] at h
          exact absurd (congrArg (fun t => t.2.1) h) (by simp)
      · rw [if_neg hcond] at h
        obtain ⟨hparts1, hparts2⟩ := migMain_twice hfind hst h
        by_cases habs : p.state = "absent"
        · obtain ⟨hfind₁, hd⟩ := hparts1 habs
          rw [hfind₁]
          dsimp only
          rw [if_neg (by rw [habs]; decide)]
          rw [migMain_eq]
          dsimp only
          rw [List.nil_append, migTail_nil,
            if_pos (And.intro rfl habs), hd]
        · obtain ⟨j₁, hfind₁, hd, hsrc, htgt, hrun2⟩ := hparts2 habs
          rw [hfind₁]
          dsimp only
          rw [if_neg hcond, hd]
          exact hrun2

end Vplex.MigMod

namespace Vplex.MigMod

/-- A migration request that the current state already satisfies (job
present with matching source and target, requested status already at its
idempotent target, requested transfer size already stored) exits with
changed false, the current record, and no mutating call. -/
theorem migRun_satisfied {env : MigEnv} {jobs : List MigJob} {p : MigParams}
    {j : MigJob}
    (hval : (validate_name p.migration_name 63 "migration job name").1 = true)
    (hfind : jobs.find? (fun j₀ => j₀.name = p.migration_name) = some j)
    (hpres : p.state = "present")
    (htsv : (if truthyInt p.transfer_size = true then
        validate_transfer_size (p.transfer_size.getD 0) else none) = none)
    (hsrc : truthyStr p.source_name = true ∧ truthyStr p.target_name = true ∧
        truthyStr p.cluster_name = true →
      j.source = "/vplex/v2/clusters/" ++ (p.cluster_name.getD "") ++ "/" ++
        storageURI p.storage ++ "/" ++ (p.source_name.getD "") ∧
      j.target = "/vplex/v2/clusters/" ++ ((match p.target_cluster with
          | none => p.cluster_name
          | some t => some t).getD "") ++ "/" ++
        storageURI p.storage ++ "/" ++ (p.target_name.getD ""))
    (hstat : p.status = none ∨ ∃ st0, p.status = some st0 ∧ st0 ≠ "" ∧
      some j.status = operations_idem st0)
    (hts : truthyInt p.transfer_size = true →
      p.transfer_size.getD 0 = j.transfer_size) :
    migRun env jobs p = (jobs, .ok false (some j), []) := by
  unfold migRun
  rw [if_neg (by rw [hval]; decide)]
  dsimp only
  rw [htsv]
  dsimp only
  rw [hfind]
  dsimp only
  have hmain : migMain jobs p (some j) false false [] =
      (jobs, .ok false (some j), []) := by
    rw [migMain_eq]
    dsimp only
    have hE1 : (if (false = true ∧ ¬ (p.status = some "pause" ∨ p.status = none)) ∨
        (¬ (false = true) ∧ truthyStr p.status = true) then
          statusPlan j (p.status.getD "")
        else .ok []) = .ok [] := by
      rcases hstat with h0 | ⟨st0, hps, hne, hidem⟩
      · rw [h0]
        rw [if_neg (by decide)]
      · rw [hps, Option.getD_some]
        rw [if_pos (Or.inr (And.intro (by decide) (by simp [truthyStr, hne])))]
        exact statusPlan_idem hidem
    rw [hE1]
    dsimp only
    have hE2 : (if ¬ (false = true) ∧ truthyInt p.transfer_size = true ∧
        p.state = "present" then
          transferPlan j (p.transfer_size.getD 0)
        else .ok []) = .ok [] := by
      by_cases htsb : truthyInt p.transfer_size = true
      · rw [if_pos (And.intro (by decide) (And.intro htsb hpres))]
        exact transferPlan_idem (hts htsb)
      · rw [if_neg (fun hc => htsb hc.2.1)]
    rw [hE2]
    dsimp only
    rw [List.nil_append, migTail_nil]
    rw [if_neg (by simp), if_neg (fun hc => absurd hc.2 (by rw [hpres]; decide))]
  by_cases hcond : p.state = "present" ∧ truthyStr p.source_name = true ∧
      truthyStr p.target_name = true ∧ truthyStr p.cluster_name = true
  · rw [if_pos hcond, if_pos (hsrc hcond.2)]
    exact hmain
  · rw [if_neg hcond]
    exact hmain

end Vplex.MigMod

namespace Vplex

/-- C2, corrected.  Idempotence of the reconciliation: (1) a
consistency-group request the current state already satisfies (every
requested volume fetched, local, owned compatibly and contributing no
operation, and any requested new name equal to the current one) exits with
changed=false, the current record and no mutating call; (2) without a
rename request, a successful consistency-group run applied twice yields
changed=true at most once: the second run issues no mutating call, reports
changed=false and returns the same record on an unchanged state; (3) the
same twice-property holds for the data-migration module on an already
existing job under the four requestable statuses; (4) a migration request
the current state already satisfies exits with changed=false, the current
record and no mutating call.  The original claim is false for renames: the
second application of a successful rename request fails instead of
reporting changed=false (see the counterexample). -/
theorem c2_idempotence_amended :
    (∀ (s : CGMod.RState) (p : CGMod.Params) (g : CGMod.Grp),
      (validate_name p.cg_name 63 "cg_name").1 = true →
      p.state = "present" →
      CGMod.get_cgrp s p.cg_name = some g →
      (∀ v ∈ (p.virtual_volumes).getD [], ∃ vis owner,
        CGMod.is_vir_vol_inuse s v = some (vis, owner) ∧ vis = "local" ∧
        (owner = some p.cg_name ∨ owner = none) ∧
        CGMod.volOpsFor p.cluster_name p.cg_name
          ((p.virtual_volume_state).getD "") owner v = []) →
      (truthyStr p.new_cg_name = false ∨
        (p.new_cg_name = some g.name ∧
          (validate_name g.name 63 "new_cg_name").1 = true)) →
      CGMod.cgRun s p = (s, .ok false (some g), [])) ∧
    (∀ (s s₁ : CGMod.RState) (p : CGMod.Params) (c : Bool)
        (d : Option CGMod.Grp) (cs : List CGMod.Call),
      truthyStr p.new_cg_name = false →
      CGMod.cgRun s p = (s₁, .ok c d, cs) →
      CGMod.cgRun s₁ p = (s₁, .ok false d, [])) ∧
    (∀ (env : MigMod.MigEnv) (jobs jobs₁ : List MigMod.MigJob)
        (p : MigMod.MigParams) (c : Bool) (d : Option MigMod.MigJob)
        (cs : List MigMod.MigCall),
      (jobs.find? (fun j₀ => j₀.name = p.migration_name)).isSome = true →
      (p.status = none ∨ ∃ st0, p.status = some st0 ∧
        (st0 = "pause" ∨ st0 = "resume" ∨ st0 = "commit" ∨ st0 = "cancel")) →
      MigMod.migRun env jobs p = (jobs₁, .ok c d, cs) →
      MigMod.migRun env jobs₁ p = (jobs₁, .ok false d, [])) ∧
    (∀ (env : MigMod.MigEnv) (jobs : List MigMod.MigJob)
        (p : MigMod.MigParams) (j : MigMod.MigJob),
      (validate_name p.migration_name 63 "migration job name").1 = true →
      jobs.find? (fun j₀ => j₀.name = p.migration_name) = some j →
      p.state = "present" →
      (if truthyInt p.transfer_size = true then
        MigMod.validate_transfer_size (p.transfer_size.getD 0)
      else none) = none →
      (truthyStr p.source_name = true ∧ truthyStr p.target_name = true ∧
          truthyStr p.cluster_name = true →
        j.source = "/vplex/v2/clusters/" ++ (p.cluster_name.getD "") ++ "/" ++
          MigMod.storageURI p.storage ++ "/" ++ (p.source_name.getD "") ∧
        j.target = "/vplex/v2/clusters/" ++ ((match p.target_cluster with
            | none => p.cluster_name
            | some t => some t).getD "") ++ "/" ++
          MigMod.storageURI p.storage ++ "/" ++ (p.target_name.getD "")) →
      (p.status = none ∨ ∃ st0, p.status = some st0 ∧ st0 ≠ "" ∧
        some j.status = MigMod.operations_idem st0) →
      (truthyInt p.transfer_size = true →
        p.transfer_size.getD 0 = j.transfer_size) →
      MigMod.migRun env jobs p = (jobs, .ok false (some j), [])) :=
  ⟨fun s p g hval hpres hg hsat hren =>
      CGMod.cgRun_satisfied hval hpres hg hsat hren,
    fun s s₁ p c d cs hnr h => CGMod.cgRun_twice hnr h,
    fun env jobs jobs₁ p c d cs hjob hst h => MigMod.migRun_twice hjob hst h,
    fun env jobs p j hval hfind hpres htsv hsrc hstat hts =>
      MigMod.migRun_satisfied hval hfind hpres htsv hsrc hstat hts⟩

/-- Witness for C2: (1) requesting the membership volume v1 already in cg1
together with a rename of cg1 to its current name is a changed=false
no-call run; (2) deleting cg1 twice reports changed=true once, then
changed=false on the unchanged state; (3) pausing a queued job twice
patches once, then reports changed=false with the patched record; (4)
requesting cancel on an already cancelled job is a changed=false no-call
run. -/
theorem c2_idempotence_amended_witness :
    (CGMod.cgRun ⟨[⟨"cg1", ["u1"]⟩], [⟨"v1", "local", some "cg1"⟩], []⟩
      ⟨"cluster-1", "cg1", some ["v1"], some "present-in-cg", some "cg1",
        "present"⟩ =
      (⟨[⟨"cg1", ["u1"]⟩], [⟨"v1", "local", some "cg1"⟩], []⟩,
        .ok false (some ⟨"cg1", ["u1"]⟩), [])) ∧
    (CGMod.cgRun ⟨[], [], []⟩
      ⟨"cluster-1", "cg1", none, none, none, "absent"⟩ =
      (⟨[], [], []⟩, .ok false none, [])) ∧
    (MigMod.migRun
      ⟨none, fun paused => if paused then "paused" else "in-progress", 131072⟩
      [⟨"mig1", "src", "tgt", "paused", 131072⟩]
      ⟨"mig1", none, none, "device", none, some "pause", none, none,
        "present"⟩ =
      ([⟨"mig1", "src", "tgt", "paused", 131072⟩],
        .ok false (some ⟨"mig1", "src", "tgt", "paused", 131072⟩), [])) ∧
    (MigMod.migRun
      ⟨none, fun paused => if paused then "paused" else "in-progress", 131072⟩
      [⟨"mig1", "src", "tgt", "cancelled", 131072⟩]
      ⟨"mig1", none, none, "device", none, some "cancel", none, none,
        "present"⟩ =
      ([⟨"mig1", "src", "tgt", "cancelled", 131072⟩],
        .ok false (some ⟨"mig1", "src", "tgt", "cancelled", 131072⟩), [])) :=
  ⟨c2_idempotence_amended.1
      ⟨[⟨"cg1", ["u1"]⟩], [⟨"v1", "local", some "cg1"⟩], []⟩
      ⟨"cluster-1", "cg1", some ["v1"], some "present-in-cg", some "cg1",
        "present"⟩ ⟨"cg1", ["u1"]⟩ (by decide) rfl (by decide)
      (fun v hv => by
        have hv1 : v = "v1" := by simpa using hv
        subst hv1
        exact ⟨"local", some "cg1", by decide, rfl, Or.inl (by decide),
          by decide⟩)
      (Or.inr ⟨rfl, by decide⟩),
    c2_idempotence_amended.2.1 ⟨[⟨"cg1", []⟩], [], []⟩ ⟨[], [], []⟩
      ⟨"cluster-1", "cg1", none, none, none, "absent"⟩ true none
      [.delete "cluster-1" "cg1"] (by decide) (by decide),
    c2_idempotence_amended.2.2.1
      ⟨none, fun paused => if paused then "paused" else "in-progress", 131072⟩
      [⟨"mig1", "src", "tgt", "queued", 131072⟩]
      [⟨"mig1", "src", "tgt", "paused", 131072⟩]
      ⟨"mig1", none, none, "device", none, some "pause", none, none,
        "present"⟩ true (some ⟨"mig1", "src", "tgt", "paused", 131072⟩)
      [.patch "mig1" [⟨"replace", "/status", .str "pause"⟩]] (by decide)
      (Or.inr ⟨"pause", rfl, Or.inl rfl⟩) (by decide),
    c2_idempotence_amended.2.2.2
      ⟨none, fun paused => if paused then "paused" else "in-progress", 131072⟩
      [⟨"mig1", "src", "tgt", "cancelled", 131072⟩]
      ⟨"mig1", none, none, "device", none, some "cancel", none, none,
        "present"⟩ ⟨"mig1", "src", "tgt", "cancelled", 131072⟩ (by decide)
      (by decide) rfl (by decide) (by decide)
      (Or.inr ⟨"cancel", rfl, by decide, by decide⟩) (by decide)⟩

/-- Counterexample to C2 as stated: the rename request cg1-to-cg2 succeeds
with changed=true on its first application, but its second application
fails with the create-and-rename message instead of reporting
changed=false with an unchanged record, because the group no longer exists
under its old name. -/
theorem c2_counterexample_rename_twice :
    CGMod.cgRun ⟨[⟨"cg1", []⟩], [], []⟩
      ⟨"cluster-1", "cg1", none, none, some "cg2", "present"⟩ =
      (⟨[⟨"cg2", []⟩], [], []⟩, .ok true (some ⟨"cg2", []⟩),
        [.patch "cluster-1" "cg1" [⟨"replace", "/name", "cg2"⟩]]) ∧
    CGMod.cgRun ⟨[⟨"cg2", []⟩], [], []⟩
      ⟨"cluster-1", "cg1", none, none, some "cg2", "present"⟩ =
      (⟨[⟨"cg2", []⟩], [], []⟩,
        .fail ("Could not perform create and rename in a single task." ++
          " Please specify each operation in single task."), []) :=
  ⟨by decide, by decide⟩

end Vplex
